import Mathlib

/-! Cross-mwm routing and turn data (omim)

A shallow embedding of `routing/cross_mwm_router.cpp`, of the turn data of
`routing/turns.hpp`, of `indexer/altitude_loader.cpp` and of the index of
`drape_frontend/user_mark_generator.cpp`, with the properties proved about them.

Conventions of the embedding

* Mutable C++ objects are passed explicitly: the `CrossMwmGraph` becomes a value of a
  state type `G` that `SetStartNode` and `SetFinalNode` return updated, and the in/out
  parameter `route` is an argument and a field of the outcome.
* Code that lives outside the translated files (`CrossMwmGraph`, `AStarAlgorithm`,
  `ConvertToSingleRouterTasks`, the `CrossNode` constructors) is a field of `Env`: the
  theorems hold for every behaviour of these collaborators.
* Every call made to a collaborator is appended to a log (`calls`), so that
  "is never invoked" is a statement about that log.
* `ASSERT_EQUAL` is a debug-build check.  The build flavour is the parameter `debug`;
  a failed assertion ends the program, which is the result code `none`.
* `uint32_t` node ids are only copied, never computed with, and are natural numbers;
  `m2::PointD` is only copied as well and is the type parameter `Pt`.
-/

namespace routing

/-! ## Data model -/

/-- The enumeration `IRouter::ResultCode`.  The five enumerators used by
`cross_mwm_router.cpp` are named; the remaining enumerators are `Other n`. -/
inductive ResultCode where
  | NoError
  | Cancelled
  | StartPointNotFound
  | EndPointNotFound
  | RouteNotFound
  | Other (n : Nat)
  deriving DecidableEq, Repr

/-- The enumeration `AStarAlgorithm<CrossMwmGraph>::Result`, the three enumerators the
`switch` of `CalculateRoute` lists (the same three as `IRoutingAlgorithm::Result`). -/
inductive AStarResult where
  | OK
  | NoPath
  | Cancelled
  deriving DecidableEq, Repr

/-- The struct `CrossNode`: node id, region name, point and the virtual flag. -/
structure CrossNode (Pt : Type) where
  node : Nat
  mwmName : String
  point : Pt
  isVirtual : Bool
  deriving DecidableEq, Repr

/-- The struct `BorderCross`: the vertex type of the cross-mwm graph, a pair of cross nodes. -/
structure BorderCross (Pt : Type) where
  fromNode : CrossNode Pt
  toNode : CrossNode Pt
  deriving DecidableEq, Repr

/-- The `node` member of a `FeatureGraphNode`: the two node ids read by the router. -/
structure PhantomNode where
  forward_node_id : Nat
  reverse_node_id : Nat
  deriving DecidableEq, Repr

/-- The struct `FeatureGraphNode`: a start or final candidate. -/
structure FeatureGraphNode (Pt : Type) where
  node : PhantomNode
  mwmName : String
  segmentPoint : Pt
  deriving DecidableEq, Repr

/-- One call made by the router to a collaborator, with its arguments. -/
inductive Call (Pt : Type) where
  | SetStartNode (startNode : CrossNode Pt)
  | SetFinalNode (finalNode : CrossNode Pt)
  | FindPath (startPos finalPos : BorderCross Pt)
  | ConvertToSingleRouterTasks (graphCrosses : List (BorderCross Pt))
      (startGraphNode finalGraphNode : FeatureGraphNode Pt)
  deriving DecidableEq, Repr

/-- The collaborators of `cross_mwm_router.cpp` that are defined in other files.

* `crossNode` is the three-argument constructor `CrossNode(node, mwmName, point)`;
* `defaultCrossNode` and `defaultGraphNode` are the default-constructed values;
* `crossEq` is `operator==` of `BorderCross`, used by `ASSERT_EQUAL`;
* `SetStartNode` and `SetFinalNode` return the result code and the updated graph;
* `FindPath` receives the graph, the two positions, the path vector as it is on entry,
  the observer and the visited-vertex callback (as the point it reports), and returns
  the search result and the path vector as it is on exit;
* `ConvertToSingleRouterTasks` returns the value of its output parameter `route`. -/
structure Env (Pt G Obs Task : Type) where
  crossNode : Nat → String → Pt → CrossNode Pt
  defaultCrossNode : CrossNode Pt
  defaultGraphNode : FeatureGraphNode Pt
  crossEq : BorderCross Pt → BorderCross Pt → Bool
  SetStartNode : G → CrossNode Pt → ResultCode × G
  SetFinalNode : G → CrossNode Pt → ResultCode × G
  FindPath : G → BorderCross Pt → BorderCross Pt → List (BorderCross Pt) → Obs →
    (BorderCross Pt → BorderCross Pt → Pt) → AStarResult × List (BorderCross Pt)
  ConvertToSingleRouterTasks : List (BorderCross Pt) → FeatureGraphNode Pt →
    FeatureGraphNode Pt → List Task → List Task

variable {Pt G Obs Task : Type}

/-! ## `CalculateRoute` -/

/-- What `CalculateRoute` leaves behind: the code it returns (`none` when a debug
assertion failed), the path vector, and the calls it made. -/
structure RouteOutcome (Pt : Type) where
  code : Option ResultCode
  route : List (BorderCross Pt)
  calls : List (Call Pt)

/-- The two `ASSERT_EQUAL` checks of the `OK` branch: `route.front() == startPos` and
`route.back() == finalPos`.  `front()` and `back()` of an empty vector have no value, and
the check fails there. -/
def okAssertions (env : Env Pt G Obs Task) (route : List (BorderCross Pt))
    (startPos finalPos : BorderCross Pt) : Bool :=
  (match route.head? with
    | some front => env.crossEq front startPos
    | none => false) &&
  (match route.getLast? with
    | some back => env.crossEq back finalPos
    | none => false)

/-- The `switch (result)` of `CalculateRoute`.  The `return IRouter::RouteNotFound` after
the `switch` is reached by none of the three enumerators. -/
def switchResult (debug assertionsHold : Bool) : AStarResult → Option ResultCode
  | AStarResult.OK => if debug && !assertionsHold then none else some ResultCode.NoError
  | AStarResult.NoPath => some ResultCode.RouteNotFound
  | AStarResult.Cancelled => some ResultCode.Cancelled

/-- The function `CalculateRoute`: runs the A* search and maps its result to a router code. -/
def CalculateRoute (env : Env Pt G Obs Task) (debug : Bool)
    (startPos finalPos : BorderCross Pt) (roadGraph : G) (route : List (BorderCross Pt))
    (observer : Obs) : RouteOutcome Pt :=
  let onVisitedVertex : BorderCross Pt → BorderCross Pt → Pt :=
    fun cross _ => cross.fromNode.point
  let found := env.FindPath roadGraph startPos finalPos route observer onVisitedVertex
  { code := switchResult debug (okAssertions env found.2 startPos finalPos) found.1
    route := found.2
    calls := [Call.FindPath startPos finalPos] }

/-! ## `CalculateCrossMwmPath` -/

/-- The local variables a candidate loop of `CalculateCrossMwmPath` works on: `code`, the
cross node, the chosen graph node, the graph, and the calls made so far. -/
structure Scan (Pt G : Type) where
  code : ResultCode
  crossNode : CrossNode Pt
  graphNode : FeatureGraphNode Pt
  roadGraph : G
  calls : List (Call Pt)

/-- The loop `for (FeatureGraphNode const & start : startGraphNodes)`. -/
def findStartNode (env : Env Pt G Obs Task) :
    List (FeatureGraphNode Pt) → Scan Pt G → Scan Pt G
  | [], st => st
  | start :: rest, st =>
    let startNode := env.crossNode start.node.forward_node_id start.mwmName start.segmentPoint
    let r := env.SetStartNode st.roadGraph startNode
    let st1 : Scan Pt G :=
      { st with code := r.1, crossNode := startNode, roadGraph := r.2,
                calls := st.calls ++ [Call.SetStartNode startNode] }
    if r.1 = ResultCode.NoError then { st1 with graphNode := start }
    else findStartNode env rest st1

/-- The loop `for (FeatureGraphNode const & final : finalGraphNodes)`. -/
def findFinalNode (env : Env Pt G Obs Task) :
    List (FeatureGraphNode Pt) → Scan Pt G → Scan Pt G
  | [], st => st
  | final :: rest, st =>
    let finalNode0 := env.crossNode final.node.reverse_node_id final.mwmName final.segmentPoint
    let finalNode : CrossNode Pt := { finalNode0 with isVirtual := true }
    let r := env.SetFinalNode st.roadGraph finalNode
    let st1 : Scan Pt G :=
      { st with code := r.1, crossNode := finalNode, roadGraph := r.2,
                calls := st.calls ++ [Call.SetFinalNode finalNode] }
    if r.1 = ResultCode.NoError then { st1 with graphNode := final }
    else findFinalNode env rest st1

/-- What `CalculateCrossMwmPath` leaves behind: the code it returns (`none` when a debug
assertion failed), the output parameter `route`, and the calls it made. -/
structure Outcome (Pt Task : Type) where
  code : Option ResultCode
  route : List Task
  calls : List (Call Pt)

/-- The function `CalculateCrossMwmPath`.  `roadGraph` is the `CrossMwmGraph` constructed over the
index manager, `route` the output parameter as it is on entry. -/
def CalculateCrossMwmPath (env : Env Pt G Obs Task) (debug : Bool)
    (startGraphNodes finalGraphNodes : List (FeatureGraphNode Pt)) (roadGraph : G)
    (observer : Obs) (route : List Task) : Outcome Pt Task :=
  -- Finding start node.
  let s := findStartNode env startGraphNodes
    { code := ResultCode.StartPointNotFound, crossNode := env.defaultCrossNode,
      graphNode := env.defaultGraphNode, roadGraph := roadGraph, calls := [] }
  if s.code ≠ ResultCode.NoError then
    { code := some ResultCode.StartPointNotFound, route := route, calls := s.calls }
  else
    -- Finding final node.
    let f := findFinalNode env finalGraphNodes
      { code := ResultCode.EndPointNotFound, crossNode := env.defaultCrossNode,
        graphNode := env.defaultGraphNode, roadGraph := s.roadGraph, calls := s.calls }
    if f.code ≠ ResultCode.NoError then
      { code := some ResultCode.EndPointNotFound, route := route, calls := f.calls }
    else
      -- Finding path through maps.
      let startNode := s.crossNode
      let finalNode := f.crossNode
      let c := CalculateRoute env debug ⟨startNode, startNode⟩ ⟨finalNode, finalNode⟩
        f.roadGraph [] observer
      if c.code ≠ some ResultCode.NoError then
        { code := c.code, route := route, calls := f.calls ++ c.calls }
      else
        -- Final path conversion to output type.
        let route1 := env.ConvertToSingleRouterTasks c.route s.graphNode f.graphNode route
        { code := some (if route1.isEmpty then ResultCode.RouteNotFound
                        else ResultCode.NoError)
          route := route1
          calls := f.calls ++ c.calls ++
            [Call.ConvertToSingleRouterTasks c.route s.graphNode f.graphNode] }

/-! ## `turns::CarDirection` -/

namespace turns

/-- The enumeration `CarDirection` of `turns.hpp`, the enumerators in declaration order. -/
inductive CarDirection where
  | None
  | GoStraight
  | TurnRight
  | TurnSharpRight
  | TurnSlightRight
  | TurnLeft
  | TurnSharpLeft
  | TurnSlightLeft
  | UTurnLeft
  | UTurnRight
  | TakeTheExit
  | EnterRoundAbout
  | LeaveRoundAbout
  | StayOnRoundAbout
  | StartAtEndOfStreet
  | ReachedYourDestination
  | Count
  deriving DecidableEq, Repr

/-- The numeric value of an enumerator: `None = 0` is written in the declaration, every
later enumerator is one more than the one before it. -/
def CarDirection.value : CarDirection → Nat
  | CarDirection.None => 0
  | CarDirection.GoStraight => 1
  | CarDirection.TurnRight => 2
  | CarDirection.TurnSharpRight => 3
  | CarDirection.TurnSlightRight => 4
  | CarDirection.TurnLeft => 5
  | CarDirection.TurnSharpLeft => 6
  | CarDirection.TurnSlightLeft => 7
  | CarDirection.UTurnLeft => 8
  | CarDirection.UTurnRight => 9
  | CarDirection.TakeTheExit => 10
  | CarDirection.EnterRoundAbout => 11
  | CarDirection.LeaveRoundAbout => 12
  | CarDirection.StayOnRoundAbout => 13
  | CarDirection.StartAtEndOfStreet => 14
  | CarDirection.ReachedYourDestination => 15
  | CarDirection.Count => 16

end turns

/-! ## Vocabulary of the statements -/

/-- The cross node the start loop builds from a candidate. -/
def startCrossNode (env : Env Pt G Obs Task) (start : FeatureGraphNode Pt) : CrossNode Pt :=
  env.crossNode start.node.forward_node_id start.mwmName start.segmentPoint

/-- The cross node the final loop builds from a candidate. -/
def finalCrossNode (env : Env Pt G Obs Task) (final : FeatureGraphNode Pt) : CrossNode Pt :=
  { env.crossNode final.node.reverse_node_id final.mwmName final.segmentPoint with
    isVirtual := true }

/-- The answer of the A* search as `CalculateRoute` invokes it: the result and the path
vector after the call. -/
def searchAnswer (env : Env Pt G Obs Task) (startPos finalPos : BorderCross Pt)
    (roadGraph : G) (route : List (BorderCross Pt)) (observer : Obs) :
    AStarResult × List (BorderCross Pt) :=
  env.FindPath roadGraph startPos finalPos route observer (fun cross _ => cross.fromNode.point)

/-- Offers the nodes to `step` (`SetStartNode` or `SetFinalNode`) one after another, each
on the graph the previous call left.  The value is `some g` when every call returned a
code other than `NoError`, `g` being the graph after the last call, and `none` as soon as
one call returned `NoError`. -/
def rejectedRun (step : G → CrossNode Pt → ResultCode × G) :
    G → List (CrossNode Pt) → Option G
  | g, [] => some g
  | g, n :: ns =>
    if (step g n).1 = ResultCode.NoError then none else rejectedRun step (step g n).2 ns

/-! ## A concrete environment

Points, graphs and route tasks are natural numbers.  `SetStartNode` accepts node 7 and
answers `RouteNotFound` otherwise, `SetFinalNode` accepts node 9 and answers `Other 3`
otherwise; both count the calls in the graph.  The search answers with the given result
and path. -/

/-- The environment of the examples. -/
def sampleEnv (result : AStarResult) (path : List (BorderCross Nat)) :
    Env Nat Nat Unit Nat where
  crossNode := fun node mwmName point => ⟨node, mwmName, point, false⟩
  defaultCrossNode := ⟨0, "", 0, false⟩
  defaultGraphNode := ⟨⟨0, 0⟩, "", 0⟩
  crossEq := fun a b => decide (a = b)
  SetStartNode := fun g n =>
    (if n.node = 7 then ResultCode.NoError else ResultCode.RouteNotFound, g + 1)
  SetFinalNode := fun g n =>
    (if n.node = 9 then ResultCode.NoError else ResultCode.Other 3, g + 1)
  FindPath := fun _ _ _ _ _ _ => (result, path)
  ConvertToSingleRouterTasks := fun graphCrosses _ _ route =>
    route ++ graphCrosses.map (fun c => c.fromNode.node)

/-- A candidate with the given forward and reverse node ids. -/
def sampleCandidate (forward reverse : Nat) : FeatureGraphNode Nat :=
  ⟨⟨forward, reverse⟩, "A", 5⟩

/-- The calls of the two candidate loops when `s` is the first accepted start candidate
and `f` the first accepted final candidate. -/
def endpointCalls (env : Env Pt G Obs Task) (pre : List (FeatureGraphNode Pt))
    (s : FeatureGraphNode Pt) (fpre : List (FeatureGraphNode Pt)) (f : FeatureGraphNode Pt) :
    List (Call Pt) :=
  (pre ++ [s]).map (fun x => Call.SetStartNode (startCrossNode env x)) ++
  (fpre ++ [f]).map (fun x => Call.SetFinalNode (finalCrossNode env x))

/-- A crossing of the examples: both halves are the node with the given id. -/
def sampleCross (node : Nat) (isVirtual : Bool) : BorderCross Nat :=
  ⟨⟨node, "A", 5, isVirtual⟩, ⟨node, "A", 5, isVirtual⟩⟩

/-! ## The A* search, modelled from the specification

`base/astar_algorithm.hpp` and `cross_mwm_road_graph.hpp` are not among the sources.  The
search is modelled from section 4.2 of the specification: an open set ordered by
`f = g + h` in which the earlier insertion wins a tie, a closed set of finalized
vertices, cancellation polled before each vertex expansion, and a path left untouched
unless the search succeeds.  Each open entry carries the path that led to it.  The loop
runs on fuel; `none` is the answer of a search that has not ended when the fuel is
spent. -/

/-- Modelled from the spec: the graph interface of section 4.1 that the search consumes,
`GetOutgoingEdges` (successors with edge weights) and `HeuristicCostEstimate`; the
class `CrossMwmGraph` itself is missing from the sources.  Costs are natural numbers. -/
structure SearchGraph (V : Type) where
  GetOutgoingEdges : V → List (V × Nat)
  HeuristicCostEstimate : V → V → Nat

/-- Modelled from the spec: an entry of the open set of section 4.2 (the search state
of the missing `AStarAlgorithm`): a vertex, its tentative cost `g` from the start,
`f = g + h`, and the path from the start to the vertex, last vertex first. -/
structure OpenEntry (V : Type) where
  vertex : V
  g : Nat
  f : Nat
  path : List V

namespace AStarAlgorithm

variable {V : Type}

/-- Modelled from the spec: insertion into the open set of the missing `AStarAlgorithm`,
kept ordered by `f`; among entries of equal `f` the one inserted earlier stays in
front. -/
def insertOpen (e : OpenEntry V) : List (OpenEntry V) → List (OpenEntry V)
  | [] => [e]
  | x :: xs => if e.f < x.f then e :: x :: xs else x :: insertOpen e xs

/-- Modelled from the spec: the expansion step of the missing `AStarAlgorithm`: every
outgoing edge of the finalized vertex whose target is not in the closed set adds an entry
for the target to the open set. -/
def expand [DecidableEq V] (graph : SearchGraph V) (finalVertex : V) (e : OpenEntry V)
    (closedSet : List V) (openSet : List (OpenEntry V)) : List (OpenEntry V) :=
  (graph.GetOutgoingEdges e.vertex).foldl
    (fun acc edge =>
      if edge.1 ∈ closedSet then acc
      else insertOpen
        { vertex := edge.1, g := e.g + edge.2,
          f := e.g + edge.2 + graph.HeuristicCostEstimate edge.1 finalVertex,
          path := edge.1 :: e.path } acc)
    openSet

/-- Modelled from the spec: the main loop of the missing `AStarAlgorithm::FindPath`.
With an empty open set the answer is `NoPath`.  Otherwise cancellation is polled
(`cancelled n` is the answer of poll number `n`), and on signal the answer is
`Cancelled` with the path of the caller untouched.  Otherwise the entry of least `f` is
taken; a vertex that is finalized already is skipped; a vertex that is the goal ends the
search with `OK` and the path of the entry; any other vertex is finalized and expanded. -/
def searchLoop [DecidableEq V] (graph : SearchGraph V) (finalVertex : V) (path : List V)
    (cancelled : Nat → Bool) : Nat → Nat → List (OpenEntry V) → List V →
    Option (AStarResult × List V)
  | 0, _, _, _ => none
  | _ + 1, _, [], _ => some (AStarResult.NoPath, path)
  | fuel + 1, polls, e :: openSet, closedSet =>
    if cancelled polls then some (AStarResult.Cancelled, path)
    else if e.vertex ∈ closedSet then
      searchLoop graph finalVertex path cancelled fuel (polls + 1) openSet closedSet
    else if e.vertex = finalVertex then some (AStarResult.OK, e.path.reverse)
    else
      searchLoop graph finalVertex path cancelled fuel (polls + 1)
        (expand graph finalVertex e (e.vertex :: closedSet) openSet) (e.vertex :: closedSet)

/-- Modelled from the spec: `FindPath(graph, start, goal, observer) -> Result + path` of
the missing `AStarAlgorithm`.  `path` is the path vector of the caller on entry,
`cancelled` the cancellation signal of the observer, `fuel` the bound on loop rounds. -/
def FindPath [DecidableEq V] (graph : SearchGraph V) (startVertex finalVertex : V)
    (path : List V) (cancelled : Nat → Bool) (fuel : Nat) : Option (AStarResult × List V) :=
  searchLoop graph finalVertex path cancelled fuel 0
    [{ vertex := startVertex, g := 0,
       f := graph.HeuristicCostEstimate startVertex finalVertex, path := [startVertex] }] []

/-- The invariant of the open set: every entry carries a path that begins, read from its
end, at the start vertex and ends at the vertex of the entry. -/
def OpenOk (startVertex : V) (openSet : List (OpenEntry V)) : Prop :=
  ∀ e ∈ openSet, e.path.head? = some e.vertex ∧ e.path.getLast? = some startVertex

end AStarAlgorithm

/-- A graph of the examples over crossings: 7 leads to 3 (weight 4) and to 5 (weight 1),
3 leads to the virtual crossing 9 (weight 1), 5 leads to 3 (weight 1) and back to 7. -/
def sampleGraph : SearchGraph (BorderCross Nat) where
  GetOutgoingEdges := fun v =>
    if v.fromNode.node = 7 then [(sampleCross 3 false, 4), (sampleCross 5 false, 1)]
    else if v.fromNode.node = 3 then [(sampleCross 9 true, 1)]
    else if v.fromNode.node = 5 then [(sampleCross 3 false, 1), (sampleCross 7 false, 1)]
    else []
  HeuristicCostEstimate := fun _ _ => 0

/-! ## Turn items and lanes of `turns.hpp` -/

namespace turns

/-- The enumeration `PedestrianDirection` of `turns.hpp`. -/
inductive PedestrianDirection where
  | None
  | Upstairs
  | Downstairs
  | LiftGate
  | Gate
  | ReachedYourDestination
  | Count
  deriving DecidableEq, Repr

/-- The enumeration `LaneWay` of `turns.hpp`. -/
inductive LaneWay where
  | None
  | Reverse
  | SharpLeft
  | Left
  | SlightLeft
  | MergeToRight
  | Through
  | MergeToLeft
  | SlightRight
  | Right
  | SharpRight
  | Count
  deriving DecidableEq, Repr

/-- The struct `SingleLaneInfo`: the lane-direction tags of one lane and the recommended
flag, which is `false` unless it is set. -/
structure SingleLaneInfo where
  m_lane : List LaneWay
  m_isRecommended : Bool
  deriving DecidableEq, Repr

/-- The struct `TurnItem` with its eight members.  `uint32_t` members are natural
numbers; they are only stored and compared. -/
structure TurnItem where
  m_index : Nat
  m_turn : CarDirection
  m_lanes : List SingleLaneInfo
  m_exitNum : Nat
  m_sourceName : String
  m_targetName : String
  m_keepAnyway : Bool
  m_pedestrianTurn : PedestrianDirection
  deriving DecidableEq, Repr

/-- The default constructor `TurnItem()`: the index is `numeric_limits<uint32_t>::max()`;
the members without an initializer (`m_lanes`, `m_sourceName`, `m_targetName`) are
default-constructed, empty. -/
def TurnItem.new : TurnItem :=
  { m_index := 4294967295, m_turn := CarDirection.None, m_lanes := [], m_exitNum := 0,
    m_sourceName := "", m_targetName := "", m_keepAnyway := false,
    m_pedestrianTurn := PedestrianDirection.None }

/-- The constructor `TurnItem(uint32_t idx, CarDirection t, uint32_t exitNum)`. -/
def TurnItem.ofCar (idx : Nat) (t : CarDirection) (exitNum : Nat) : TurnItem :=
  { m_index := idx, m_turn := t, m_lanes := [], m_exitNum := exitNum,
    m_sourceName := "", m_targetName := "", m_keepAnyway := false,
    m_pedestrianTurn := PedestrianDirection.None }

/-- The constructor `TurnItem(idx, t)` with `exitNum` omitted: its default argument
is 0. -/
def TurnItem.ofCarNoExit (idx : Nat) (t : CarDirection) : TurnItem :=
  TurnItem.ofCar idx t 0

/-- The constructor `TurnItem(uint32_t idx, PedestrianDirection p)`. -/
def TurnItem.ofPedestrian (idx : Nat) (p : PedestrianDirection) : TurnItem :=
  { m_index := idx, m_turn := CarDirection.None, m_lanes := [], m_exitNum := 0,
    m_sourceName := "", m_targetName := "", m_keepAnyway := false,
    m_pedestrianTurn := p }

/-- The comparison `operator==` of `std::vector`: equal sizes and elements equal in
pairs under the `operator==` of the element type. -/
def vectorEq {α : Type} (elemEq : α → α → Bool) : List α → List α → Bool
  | [], [] => true
  | x :: xs, y :: ys => elemEq x y && vectorEq elemEq xs ys
  | _, _ => false

/-- The comparison `TurnItem::operator==`.  `laneEq` is `SingleLaneInfo::operator==`,
which `turns.hpp` declares and another file defines. -/
def TurnItem.eq (laneEq : SingleLaneInfo → SingleLaneInfo → Bool) (a rhs : TurnItem) : Bool :=
  decide (a.m_index = rhs.m_index) && decide (a.m_turn = rhs.m_turn) &&
  vectorEq laneEq a.m_lanes rhs.m_lanes &&
  decide (a.m_exitNum = rhs.m_exitNum) && decide (a.m_sourceName = rhs.m_sourceName) &&
  decide (a.m_targetName = rhs.m_targetName) && decide (a.m_keepAnyway = rhs.m_keepAnyway) &&
  decide (a.m_pedestrianTurn = rhs.m_pedestrianTurn)

/-! ### Lane parsing, modelled from the specification

`turns.hpp` declares `ParseLanes`, `SplitLanes` and `ParseSingleLane`; their bodies are
in `turns.cpp`, which is not among the sources.  They are modelled from section 4.5 of
the specification and the comment of the declaration: the string is split on a group
delimiter into groups, each group on a delimiter within the group into tokens, and an
empty or malformed string fails.  The group delimiter is the bar and the delimiter
within a group the semicolon, as in the example `through|through|through|through;right`
of the comment.  The table of token names is the parameter `laneWayOf`. -/

/-- Modelled from the spec: the splitting of a string on a delimiter that the missing
`SplitLanes` performs, on the list of characters: the pieces between the delimiters, in
order. -/
def splitChars (delimiter : Char) : List Char → List (List Char)
  | [] => [[]]
  | c :: cs =>
    if c = delimiter then [] :: splitChars delimiter cs
    else
      match splitChars delimiter cs with
      | [] => [[c]]
      | piece :: pieces => (c :: piece) :: pieces

/-- Modelled from the spec: the missing `SplitLanes(lanesString, delimiter, lanes)`; the
value is the output parameter `lanes`. -/
def SplitLanes (lanesString : String) (delimiter : Char) : List String :=
  (splitChars delimiter lanesString.toList).map String.mk

/-- Modelled from the spec: the reading of the tokens of one group by the missing
`ParseSingleLane`: every token has to be a lane-direction tag of the table. -/
def parseTokens (laneWayOf : String → Option LaneWay) : List String → Option (List LaneWay)
  | [] => some []
  | token :: tokens =>
    match laneWayOf token with
    | none => none
    | some way =>
      match parseTokens laneWayOf tokens with
      | none => none
      | some ways => some (way :: ways)

/-- Modelled from the spec: the missing `ParseSingleLane(laneString, delimiter, lane)`;
`none` is the return value `false`, `some lane` the value `true` with the output. -/
def ParseSingleLane (laneWayOf : String → Option LaneWay) (laneString : String)
    (delimiter : Char) : Option (List LaneWay) :=
  parseTokens laneWayOf (SplitLanes laneString delimiter)

/-- Modelled from the spec: the reading of the groups by the missing `ParseLanes`: a
group that fails makes the whole parse fail, so that no partial list is returned. -/
def parseGroups (laneWayOf : String → Option LaneWay) : List String → Option (List SingleLaneInfo)
  | [] => some []
  | group :: groups =>
    match ParseSingleLane laneWayOf group ';' with
    | none => none
    | some lane =>
      match parseGroups laneWayOf groups with
      | none => none
      | some lanes => some ({ m_lane := lane, m_isRecommended := false } :: lanes)

/-- Modelled from the spec: the missing `ParseLanes(lanesString, lanes)`; `none` is the
return value `false`, `some lanes` the value `true` with the output.  The empty string
fails. -/
def ParseLanes (laneWayOf : String → Option LaneWay) (lanesString : String) :
    Option (List SingleLaneInfo) :=
  if lanesString = "" then none
  else parseGroups laneWayOf (SplitLanes lanesString '|')

/-- A table of token names of the examples: four of the tags, under their names in
lower case. -/
def sampleLaneWayOf (token : String) : Option LaneWay :=
  if token = "through" then some LaneWay.Through
  else if token = "right" then some LaneWay.Right
  else if token = "left" then some LaneWay.Left
  else if token = "none" then some LaneWay.None
  else none

end turns

end routing

/-! ## The altitude loader of `indexer/altitude_loader.cpp` -/

namespace feature

/-- One read that `GetAltitude` makes of the data behind the loader. -/
inductive Access where
  | AvailabilityBit (featureId : Nat)
  | AvailabilityRank (featureId : Nat)
  | AvailabilitySize
  | TableSelect (r : Nat)
  | TableSize
  | ReaderSize
  | Deserialize (offset pointCount : Nat)
  deriving DecidableEq, Repr

/-- What `Altitude::Deserialize` on the section reader does: it yields the altitudes, or
throws `Reader::OpenException`, or throws another exception. -/
inductive Deserialized where
  | Altitudes (altitudes : List Int)
  | OpenException
  | OtherException
  deriving DecidableEq, Repr

/-- The collaborators of `altitude_loader.cpp` that are defined in other files, for a
bit-vector type `BV` (`succinct::rs_bit_vector`), a table type `EF`
(`succinct::elias_fano`) and a reader type `R`: the constants `kInvalidAltitude` and
`version::Format::v8`, `operator[]`, `rank` and `size` of the bit vector, `select` and
`size` of the table, `Size` of the reader, and the deserialization of the altitudes at
an offset of the section (reader, minimal altitude, point count, offset). -/
structure AltitudeEnv (BV EF R : Type) where
  kInvalidAltitude : Int
  v8 : Int
  bit : BV → Nat → Bool
  rank : BV → Nat → Nat
  bitSize : BV → Nat
  select : EF → Nat → Nat
  tableSize : EF → Nat
  readerSize : R → Nat
  deserialize : R → Int → Nat → Nat → Deserialized

/-- The members of `AltitudeLoader` that `GetAltitude` reads.  The two `unique_ptr`
members are `none` while they are null. -/
structure AltitudeLoader (BV EF R : Type) where
  reader : R
  m_altitudeInfoOffset : Nat
  m_minAltitude : Int
  m_altitudeAvailability : Option BV
  m_featureTable : Option EF

/-- How a call of `GetAltitude` ends: it returns altitudes, or it is aborted (a
`CHECK_LESS` fails or a null pointer is dereferenced), or an exception other than
`Reader::OpenException` leaves it. -/
inductive AltitudeResult where
  | Returned (altitudes : List Int)
  | Aborted
  | Thrown
  deriving DecidableEq, Repr

variable {BV EF R : Type}

/-- The function `AltitudeLoader::GetAltitude`, with the reads it makes, in order.  The
sum `m_altitudeInfoOffset + offset` is a `uint64_t`. -/
def AltitudeLoader.GetAltitude (env : AltitudeEnv BV EF R) (self : AltitudeLoader BV EF R)
    (featureId pointCount : Nat) : AltitudeResult × List Access :=
  if self.m_altitudeInfoOffset = 0 then
    -- The version of mwm is less then version::Format::v8 or there is no altitude section.
    (AltitudeResult.Returned [], [])
  else
    match self.m_altitudeAvailability with
    | none => (AltitudeResult.Aborted, [])
    | some availability =>
      if !(env.bit availability featureId) then
        (AltitudeResult.Returned [], [Access.AvailabilityBit featureId])
      else
        let r := env.rank availability featureId
        if ¬ r < env.bitSize availability then
          (AltitudeResult.Aborted,
            [Access.AvailabilityBit featureId, Access.AvailabilityRank featureId,
             Access.AvailabilitySize])
        else
          match self.m_featureTable with
          | none =>
            (AltitudeResult.Aborted,
              [Access.AvailabilityBit featureId, Access.AvailabilityRank featureId,
               Access.AvailabilitySize])
          | some featureTable =>
            let offset := env.select featureTable r
            if ¬ offset < env.tableSize featureTable then
              (AltitudeResult.Aborted,
                [Access.AvailabilityBit featureId, Access.AvailabilityRank featureId,
                 Access.AvailabilitySize, Access.TableSelect r, Access.TableSize])
            else
              let offsetInSection := (self.m_altitudeInfoOffset + offset) % 2 ^ 64
              if ¬ offsetInSection < env.readerSize self.reader then
                (AltitudeResult.Aborted,
                  [Access.AvailabilityBit featureId, Access.AvailabilityRank featureId,
                   Access.AvailabilitySize, Access.TableSelect r, Access.TableSize,
                   Access.ReaderSize])
              else
                ((match env.deserialize self.reader self.m_minAltitude pointCount
                      offsetInSection with
                  | Deserialized.Altitudes altitudes => AltitudeResult.Returned altitudes
                  | Deserialized.OpenException => AltitudeResult.Returned []
                  | Deserialized.OtherException => AltitudeResult.Thrown),
                  [Access.AvailabilityBit featureId, Access.AvailabilityRank featureId,
                   Access.AvailabilitySize, Access.TableSelect r, Access.TableSize,
                   Access.ReaderSize, Access.Deserialize offsetInSection pointCount])

/-- What the constructor reads of `*mwmValue`: the result of
`m_cont.GetReader(ALTITUDES_FILE_TAG)` (`none` when it throws) and the format of the
header. -/
structure MwmValue (R : Type) where
  altitudeReader : Option R
  format : Int

/-- The effect of the `try` block of the constructor (`DeserializeHeader` and the two
`ReadBuffer` calls with the mapping of the buffers), which reads from the section
reader: it completes with the four members set, or it throws `Reader::OpenException`
with the members as they are at that point, or it throws another exception. -/
inductive TryBlock (BV EF : Type) where
  | Completed (minAltitude : Int) (altitudeInfoOffset : Nat) (availability : BV)
      (featureTable : EF)
  | OpenException (minAltitude : Int) (altitudeInfoOffset : Nat) (availability : Option BV)
      (featureTable : Option EF)
  | OtherException

/-- The constructor `AltitudeLoader::AltitudeLoader(MwmValue const * mwmValue)`.  The
member initializer list dereferences `mwmValue` and calls `GetReader` before the body
runs, outside the `try` block; `none` is a construction that does not complete (null
pointer, exception of `GetReader`, or an exception of the `try` block other than
`Reader::OpenException`). -/
def AltitudeLoader.new (env : AltitudeEnv BV EF R) (mwmValue : Option (MwmValue R))
    (tryBlock : R → TryBlock BV EF) : Option (AltitudeLoader BV EF R) :=
  match mwmValue with
  | none => none
  | some value =>
    match value.altitudeReader with
    | none => none
    | some reader =>
      let self : AltitudeLoader BV EF R :=
        { reader := reader, m_altitudeInfoOffset := 0,
          m_minAltitude := env.kInvalidAltitude,
          m_altitudeAvailability := none, m_featureTable := none }
      if value.format < env.v8 then some self
      else
        match tryBlock reader with
        | TryBlock.Completed minAltitude altitudeInfoOffset availability featureTable =>
          some { self with m_altitudeInfoOffset := altitudeInfoOffset,
                           m_minAltitude := minAltitude,
                           m_altitudeAvailability := some availability,
                           m_featureTable := some featureTable }
        | TryBlock.OpenException _ _ availability featureTable =>
          some { self with m_altitudeInfoOffset := 0,
                           m_minAltitude := env.kInvalidAltitude,
                           m_altitudeAvailability := availability,
                           m_featureTable := featureTable }
        | TryBlock.OtherException => none

/-- An environment of the examples: bit vectors are lists of bits, the table is a list of
offsets, the reader is the list of altitudes of the section. -/
def sampleAltitudeEnv : AltitudeEnv (List Bool) (List Nat) (List Int) where
  kInvalidAltitude := -32768
  v8 := 8
  bit := fun bits i => bits.getD i false
  rank := fun bits i => (bits.take i).count true
  bitSize := fun bits => bits.length
  select := fun table r => table.getD r 0
  tableSize := fun table => table.length
  readerSize := fun reader => reader.length
  deserialize := fun reader _ pointCount offset =>
    Deserialized.Altitudes ((reader.drop offset).take pointCount)

end feature

/-! ## The user mark generator of `drape_frontend/user_mark_generator.cpp`

A `std::map` is the list of its entries; `find` yields the first entry under a key.  The
entries are kept in the order of insertion: the loops over a map treat every entry on its
own, and no statement depends on the order.  A `std::set` of group ids is the list of its
elements. -/

namespace df

/-- The constant `kLineIndexingLevels`. -/
def kLineIndexingLevels : List Int := [1, 7, 11]

/-- The struct `TileKey`: tile coordinates and zoom level. -/
structure TileKey where
  m_x : Int
  m_y : Int
  m_zoomLevel : Int
  deriving DecidableEq, Repr

/-- The struct `MarkIDCollection`: the mark ids and the line ids of a group. -/
structure MarkIDCollection where
  m_marksID : List Nat
  m_linesID : List Nat
  deriving DecidableEq, Repr

/-- The type `MarksIDGroups`, a map from group id to id collection. -/
abbrev MarksIDGroups := List (Nat × MarkIDCollection)

/-- The type of `m_index`, a map from tile key to the groups of the tile. -/
abbrev MarksIndex := List (TileKey × MarksIDGroups)

/-- The members of `UserMarkRenderParams` that the generator reads. -/
structure UserMarkRenderParams (Pt : Type) where
  m_minZoom : Int
  m_pivot : Pt
  m_justCreated : Bool

/-- The members of `UserLineRenderParams` that the generator reads. -/
structure UserLineRenderParams (Sp : Type) where
  m_minZoom : Int
  m_spline : Sp

/-- The state of a `UserMarkGenerator` (the flush function apart). -/
structure UserMarkGenerator (Pt Sp : Type) where
  m_marks : List (Nat × UserMarkRenderParams Pt)
  m_lines : List (Nat × UserLineRenderParams Sp)
  m_groups : MarksIDGroups
  m_groupsVisibility : List Nat
  m_index : MarksIndex

/-- The collaborators of `user_mark_generator.cpp` that are defined in other files:
`scales::GetUpperScale()`, `GetTileKeyByPoint`, and, for a spline and a zoom level, the
tiles `(tileX, tileY)` that `ProcessSplineSegmentRects` with `CalcTilesCoverage` hands to
the innermost callback of `UpdateIndex`, in order. -/
structure TileEnv (Pt Sp : Type) where
  GetUpperScale : Int
  GetTileKeyByPoint : Pt → Int → TileKey
  lineTiles : Sp → Int → List (Int × Int)

/-- The lookup `std::map::find`: the value under the key, `none` for `end()`. -/
def mapFind {K V : Type} [DecidableEq K] (key : K) : List (K × V) → Option V
  | [] => none
  | entry :: rest => if entry.1 = key then some entry.2 else mapFind key rest

/-- The removal `erase(key)` of `std::map`: no entry under the key is left. -/
def mapErase {K V : Type} [DecidableEq K] (key : K) (m : List (K × V)) : List (K × V) :=
  m.filter (fun entry => decide (entry.1 ≠ key))

/-- A write through the iterator that `find(key)` yields: the value of the entry found
is replaced by its image; without such an entry nothing changes. -/
def mapModify {K V : Type} [DecidableEq K] (key : K) (f : V → V) : List (K × V) → List (K × V)
  | [] => []
  | entry :: rest =>
    if entry.1 = key then (entry.1, f entry.2) :: rest
    else entry :: mapModify key f rest

/-- The assignment `m[key] = value` and the `find`-then-assign-or-`emplace` of
`SetUserMarks`: the value under the key is replaced, or a new entry is added. -/
def mapSet {K V : Type} [DecidableEq K] (key : K) (value : V) (m : List (K × V)) :
    List (K × V) :=
  match mapFind key m with
  | some _ => mapModify key (fun _ => value) m
  | none => m ++ [(key, value)]

/-- The loop of `GetNearestLineIndexZoom` over the levels after the first. -/
def nearestLoop (zoom : Int) : List Int → Int → Int
  | [], nearestZoom => nearestZoom
  | level :: rest, nearestZoom =>
    if level ≤ zoom then nearestLoop zoom rest level else nearestZoom

/-- The function `UserMarkGenerator::GetNearestLineIndexZoom`. -/
def GetNearestLineIndexZoom (zoom : Int) : Int :=
  nearestLoop zoom kLineIndexingLevels.tail
    (kLineIndexingLevels.head (by simp [kLineIndexingLevels]))

/-- The two loops of `UserMarkGenerator::CleanIndex` on the index: first the tiles
whose group map is empty are erased, then, in every tile left, the groups whose mark ids
and line ids are both empty. -/
def cleanIndex (index : MarksIndex) : MarksIndex :=
  (index.filter (fun tile => !tile.2.isEmpty)).map
    (fun tile => (tile.1, tile.2.filter
      (fun group => !(group.2.m_marksID.isEmpty && group.2.m_linesID.isEmpty))))

variable {Pt Sp : Type}

/-- The function `UserMarkGenerator::CleanIndex`. -/
def UserMarkGenerator.CleanIndex (self : UserMarkGenerator Pt Sp) : UserMarkGenerator Pt Sp :=
  { self with m_index := cleanIndex self.m_index }

/-- The function `UserMarkGenerator::GetIdCollection`: the index with an entry for the
tile and, in it, an entry for the group, both created empty where missing.  The
reference it returns is the id collection under that tile and group. -/
def GetIdCollection (tileKey : TileKey) (groupId : Nat) (index : MarksIndex) : MarksIndex :=
  let index1 : MarksIndex :=
    match mapFind tileKey index with
    | none => index ++ [(tileKey, [])]
    | some _ => index
  mapModify tileKey
    (fun tileGroups =>
      match mapFind groupId tileGroups with
      | none => tileGroups ++ [(groupId, { m_marksID := [], m_linesID := [] })]
      | some _ => tileGroups)
    index1

/-- A write through the reference that `GetIdCollection` returns. -/
def updateIdCollection (tileKey : TileKey) (groupId : Nat)
    (f : MarkIDCollection → MarkIDCollection) (index : MarksIndex) : MarksIndex :=
  mapModify tileKey (mapModify groupId f) (GetIdCollection tileKey groupId index)

/-- The zoom levels `lo, lo + 1, ..., hi` of a `for` loop, none when `hi < lo`. -/
def zoomLevels (lo hi : Int) : List Int :=
  (List.range (hi - lo + 1).toNat).map (fun i => lo + (i : Int))

/-- The loop of `UpdateIndex` over the mark ids of the group.  `m_marks[markId]` of an id
that is not stored yields a null pointer, and its dereference ends the program: `none`. -/
def indexMarks (env : TileEnv Pt Sp) (m_marks : List (Nat × UserMarkRenderParams Pt))
    (groupId : Nat) : List Nat → MarksIndex → Option MarksIndex
  | [], index => some index
  | markId :: rest, index =>
    match mapFind markId m_marks with
    | none => none
    | some params =>
      indexMarks env m_marks groupId rest
        ((zoomLevels params.m_minZoom env.GetUpperScale).foldl
          (fun acc zoomLevel =>
            updateIdCollection (env.GetTileKeyByPoint params.m_pivot zoomLevel) groupId
              (fun ids => { ids with m_marksID := ids.m_marksID ++ [markId % 2 ^ 32] }) acc)
          index)

/-- The loop of `UpdateIndex` over the line ids of the group. -/
def indexLines (env : TileEnv Pt Sp) (m_lines : List (Nat × UserLineRenderParams Sp))
    (groupId : Nat) : List Nat → MarksIndex → Option MarksIndex
  | [], index => some index
  | lineId :: rest, index =>
    match mapFind lineId m_lines with
    | none => none
    | some params =>
      let startZoom := GetNearestLineIndexZoom params.m_minZoom
      indexLines env m_lines groupId rest
        (kLineIndexingLevels.foldl
          (fun acc zoomLevel =>
            if zoomLevel < startZoom then acc
            else
              (env.lineTiles params.m_spline zoomLevel).foldl
                (fun acc1 tile =>
                  updateIdCollection ⟨tile.1, tile.2, zoomLevel⟩ groupId
                    (fun ids => { ids with m_linesID := ids.m_linesID ++ [lineId % 2 ^ 32] })
                    acc1)
                acc)
          index)

/-- The function `UserMarkGenerator::UpdateIndex`; `none` when a null pointer is
dereferenced. -/
def UserMarkGenerator.UpdateIndex (env : TileEnv Pt Sp) (groupId : Nat)
    (self : UserMarkGenerator Pt Sp) : Option (UserMarkGenerator Pt Sp) :=
  let index0 : MarksIndex := self.m_index.map
    (fun tileGroups =>
      (tileGroups.1, mapModify groupId (fun _ => { m_marksID := [], m_linesID := [] })
        tileGroups.2))
  match mapFind groupId self.m_groups with
  | none => some { self with m_index := index0 }
  | some idCollection =>
    match indexMarks env self.m_marks groupId idCollection.m_marksID index0 with
    | none => none
    | some index1 =>
      match indexLines env self.m_lines groupId idCollection.m_linesID index1 with
      | none => none
      | some index2 =>
        some (UserMarkGenerator.CleanIndex { self with m_index := index2 })

/-- The function `UserMarkGenerator::RemoveGroup`. -/
def UserMarkGenerator.RemoveGroup (env : TileEnv Pt Sp) (groupId : Nat)
    (self : UserMarkGenerator Pt Sp) : Option (UserMarkGenerator Pt Sp) :=
  UserMarkGenerator.UpdateIndex env groupId
    { self with m_groupsVisibility := self.m_groupsVisibility.filter
                  (fun g => decide (g ≠ groupId)),
                m_groups := mapErase groupId self.m_groups }

/-- The function `UserMarkGenerator::SetGroup`; `ids` is the collection moved in. -/
def UserMarkGenerator.SetGroup (env : TileEnv Pt Sp) (groupId : Nat) (ids : MarkIDCollection)
    (self : UserMarkGenerator Pt Sp) : Option (UserMarkGenerator Pt Sp) :=
  UserMarkGenerator.UpdateIndex env groupId
    { self with m_groups := mapSet groupId ids self.m_groups }

/-- The function `UserMarkGenerator::SetUserMarks`. -/
def UserMarkGenerator.SetUserMarks (marks : List (Nat × UserMarkRenderParams Pt))
    (self : UserMarkGenerator Pt Sp) : UserMarkGenerator Pt Sp :=
  { self with m_marks := marks.foldl (fun acc pair => mapSet pair.1 pair.2 acc) self.m_marks }

/-- The function `UserMarkGenerator::GetUserMarksGroups`; `none` is `nullptr`. -/
def UserMarkGenerator.GetUserMarksGroups (self : UserMarkGenerator Pt Sp) (tileKey : TileKey) :
    Option MarksIDGroups :=
  mapFind tileKey self.m_index

/-- The index entry of a group in a tile: the id collection that the index holds under
the tile key and the group id, if any. -/
def indexEntry (index : MarksIndex) (tileKey : TileKey) (groupId : Nat) :
    Option MarkIDCollection :=
  match mapFind tileKey index with
  | none => none
  | some tileGroups => mapFind groupId tileGroups

/-- An environment of the examples: points are pairs of tile coordinates, the upper
scale is 17, and a spline is the list of the tiles it crosses at every level. -/
def sampleTileEnv : TileEnv (Int × Int) (List (Int × Int)) where
  GetUpperScale := 17
  GetTileKeyByPoint := fun point zoomLevel => ⟨point.1, point.2, zoomLevel⟩
  lineTiles := fun spline _ => spline

/-- The generator of the examples before any call: all maps empty. -/
def emptyGenerator : UserMarkGenerator (Int × Int) (List (Int × Int)) :=
  { m_marks := [], m_lines := [], m_groups := [], m_groupsVisibility := [], m_index := [] }

/-- A generator of the examples: mark 1 in group 1, mark 2 and line 5 in group 2, both
groups visible and indexed in two tiles. -/
def sampleGenerator : UserMarkGenerator (Int × Int) (List (Int × Int)) :=
  { m_marks := [(1, ⟨17, (0, 0), false⟩), (2, ⟨17, (0, 0), false⟩)]
    m_lines := [(5, ⟨11, [(3, 4)]⟩)]
    m_groups := [(1, ⟨[1], []⟩), (2, ⟨[2], [5]⟩)]
    m_groupsVisibility := [1, 2]
    m_index :=
      [(⟨0, 0, 17⟩, [(1, ⟨[1], []⟩), (2, ⟨[2], []⟩)]), (⟨3, 4, 11⟩, [(2, ⟨[], [5]⟩)])] }

end df

namespace routing

variable {Pt G Obs Task : Type}

/-! ## Lemmas on the candidate loops -/

theorem findStartNode_rejected (env : Env Pt G Obs Task) (l : List (FeatureGraphNode Pt)) :
    ∀ (st : Scan Pt G) (g1 : G),
      rejectedRun env.SetStartNode st.roadGraph (l.map (startCrossNode env)) = some g1 →
      st.code ≠ ResultCode.NoError →
      (findStartNode env l st).code ≠ ResultCode.NoError ∧
      (findStartNode env l st).roadGraph = g1 ∧
      (findStartNode env l st).calls =
        st.calls ++ l.map (fun x => Call.SetStartNode (startCrossNode env x)) := by
  induction l with
  | nil =>
    intro st g1 h hc
    simp only [List.map_nil, rejectedRun, Option.some.injEq] at h
    simp [findStartNode, hc, h]
  | cons x xs ih =>
    intro st g1 h hc
    simp only [List.map_cons, rejectedRun] at h
    by_cases hx : (env.SetStartNode st.roadGraph (startCrossNode env x)).1 = ResultCode.NoError
    · simp [hx] at h
    · rw [if_neg hx] at h
      have hx1 : (env.SetStartNode st.roadGraph
          (env.crossNode x.node.forward_node_id x.mwmName x.segmentPoint)).1
            ≠ ResultCode.NoError := hx
      simp only [findStartNode, if_neg hx1]
      have := ih
        { st with code := (env.SetStartNode st.roadGraph (startCrossNode env x)).1,
                  crossNode := startCrossNode env x,
                  roadGraph := (env.SetStartNode st.roadGraph (startCrossNode env x)).2,
                  calls := st.calls ++ [Call.SetStartNode (startCrossNode env x)] } g1 h hx
      simpa [startCrossNode] using this

theorem findStartNode_accepted (env : Env Pt G Obs Task) (pre : List (FeatureGraphNode Pt))
    (x : FeatureGraphNode Pt) (post : List (FeatureGraphNode Pt)) :
    ∀ (st : Scan Pt G) (g1 : G),
      rejectedRun env.SetStartNode st.roadGraph (pre.map (startCrossNode env)) = some g1 →
      (env.SetStartNode g1 (startCrossNode env x)).1 = ResultCode.NoError →
      findStartNode env (pre ++ x :: post) st =
        { code := ResultCode.NoError, crossNode := startCrossNode env x, graphNode := x,
          roadGraph := (env.SetStartNode g1 (startCrossNode env x)).2,
          calls := st.calls ++
            (pre ++ [x]).map (fun y => Call.SetStartNode (startCrossNode env y)) } := by
  induction pre with
  | nil =>
    intro st g1 h hx
    simp only [List.map_nil, rejectedRun, Option.some.injEq] at h
    subst h
    have hx1 : (env.SetStartNode st.roadGraph
        (env.crossNode x.node.forward_node_id x.mwmName x.segmentPoint)).1
          = ResultCode.NoError := hx
    simp [findStartNode, hx1, startCrossNode]
  | cons p ps ih =>
    intro st g1 h hx
    simp only [List.map_cons, rejectedRun] at h
    by_cases hp : (env.SetStartNode st.roadGraph (startCrossNode env p)).1 = ResultCode.NoError
    · simp [hp] at h
    · rw [if_neg hp] at h
      have hp1 : (env.SetStartNode st.roadGraph
          (env.crossNode p.node.forward_node_id p.mwmName p.segmentPoint)).1
            ≠ ResultCode.NoError := hp
      simp only [List.cons_append, findStartNode, if_neg hp1]
      have := ih
        { st with code := (env.SetStartNode st.roadGraph (startCrossNode env p)).1,
                  crossNode := startCrossNode env p,
                  roadGraph := (env.SetStartNode st.roadGraph (startCrossNode env p)).2,
                  calls := st.calls ++ [Call.SetStartNode (startCrossNode env p)] } g1 h hx
      simpa [startCrossNode] using this

theorem findFinalNode_rejected (env : Env Pt G Obs Task) (l : List (FeatureGraphNode Pt)) :
    ∀ (st : Scan Pt G) (g1 : G),
      rejectedRun env.SetFinalNode st.roadGraph (l.map (finalCrossNode env)) = some g1 →
      st.code ≠ ResultCode.NoError →
      (findFinalNode env l st).code ≠ ResultCode.NoError ∧
      (findFinalNode env l st).roadGraph = g1 ∧
      (findFinalNode env l st).calls =
        st.calls ++ l.map (fun x => Call.SetFinalNode (finalCrossNode env x)) := by
  induction l with
  | nil =>
    intro st g1 h hc
    simp only [List.map_nil, rejectedRun, Option.some.injEq] at h
    simp [findFinalNode, hc, h]
  | cons x xs ih =>
    intro st g1 h hc
    simp only [List.map_cons, rejectedRun] at h
    by_cases hx : (env.SetFinalNode st.roadGraph (finalCrossNode env x)).1 = ResultCode.NoError
    · simp [hx] at h
    · rw [if_neg hx] at h
      have hx1 : (env.SetFinalNode st.roadGraph
          { env.crossNode x.node.reverse_node_id x.mwmName x.segmentPoint with
            isVirtual := true }).1
            ≠ ResultCode.NoError := hx
      simp only [findFinalNode, if_neg hx1]
      have := ih
        { st with code := (env.SetFinalNode st.roadGraph (finalCrossNode env x)).1,
                  crossNode := finalCrossNode env x,
                  roadGraph := (env.SetFinalNode st.roadGraph (finalCrossNode env x)).2,
                  calls := st.calls ++ [Call.SetFinalNode (finalCrossNode env x)] } g1 h hx
      simpa [finalCrossNode] using this

theorem findFinalNode_accepted (env : Env Pt G Obs Task) (pre : List (FeatureGraphNode Pt))
    (x : FeatureGraphNode Pt) (post : List (FeatureGraphNode Pt)) :
    ∀ (st : Scan Pt G) (g1 : G),
      rejectedRun env.SetFinalNode st.roadGraph (pre.map (finalCrossNode env)) = some g1 →
      (env.SetFinalNode g1 (finalCrossNode env x)).1 = ResultCode.NoError →
      findFinalNode env (pre ++ x :: post) st =
        { code := ResultCode.NoError, crossNode := finalCrossNode env x, graphNode := x,
          roadGraph := (env.SetFinalNode g1 (finalCrossNode env x)).2,
          calls := st.calls ++
            (pre ++ [x]).map (fun y => Call.SetFinalNode (finalCrossNode env y)) } := by
  induction pre with
  | nil =>
    intro st g1 h hx
    simp only [List.map_nil, rejectedRun, Option.some.injEq] at h
    subst h
    have hx1 : (env.SetFinalNode st.roadGraph
        { env.crossNode x.node.reverse_node_id x.mwmName x.segmentPoint with
            isVirtual := true }).1
          = ResultCode.NoError := hx
    simp [findFinalNode, hx1, finalCrossNode]
  | cons p ps ih =>
    intro st g1 h hx
    simp only [List.map_cons, rejectedRun] at h
    by_cases hp : (env.SetFinalNode st.roadGraph (finalCrossNode env p)).1 = ResultCode.NoError
    · simp [hp] at h
    · rw [if_neg hp] at h
      have hp1 : (env.SetFinalNode st.roadGraph
          { env.crossNode p.node.reverse_node_id p.mwmName p.segmentPoint with
            isVirtual := true }).1
            ≠ ResultCode.NoError := hp
      simp only [List.cons_append, findFinalNode, if_neg hp1]
      have := ih
        { st with code := (env.SetFinalNode st.roadGraph (finalCrossNode env p)).1,
                  crossNode := finalCrossNode env p,
                  roadGraph := (env.SetFinalNode st.roadGraph (finalCrossNode env p)).2,
                  calls := st.calls ++ [Call.SetFinalNode (finalCrossNode env p)] } g1 h hx
      simpa [finalCrossNode] using this

/-- Every candidate list either is rejected as a whole or splits at its first accepted
candidate. -/
theorem rejectedRun_cases (step : G → CrossNode Pt → ResultCode × G)
    (mk : FeatureGraphNode Pt → CrossNode Pt) (l : List (FeatureGraphNode Pt)) :
    ∀ g : G, (∃ g1, rejectedRun step g (l.map mk) = some g1) ∨
      ∃ pre x post g1, l = pre ++ x :: post ∧
        rejectedRun step g (pre.map mk) = some g1 ∧
        (step g1 (mk x)).1 = ResultCode.NoError := by
  induction l with
  | nil => intro g; exact Or.inl ⟨g, rfl⟩
  | cons y ys ih =>
    intro g
    by_cases hy : (step g (mk y)).1 = ResultCode.NoError
    · exact Or.inr ⟨[], y, ys, g, rfl, rfl, hy⟩
    · rcases ih (step g (mk y)).2 with ⟨g1, h1⟩ | ⟨pre, x, post, g1, hl, h1, hx⟩
      · exact Or.inl ⟨g1, by simp [rejectedRun, hy, h1]⟩
      · exact Or.inr ⟨y :: pre, x, post, g1, by simp [hl], by simp [rejectedRun, hy, h1], hx⟩

/-- The function after both endpoints are accepted: what is left is the search and the
conversion. -/
theorem CalculateCrossMwmPath_accepted (env : Env Pt G Obs Task) (debug : Bool)
    (pre : List (FeatureGraphNode Pt)) (s : FeatureGraphNode Pt)
    (post fpre : List (FeatureGraphNode Pt)) (f : FeatureGraphNode Pt)
    (fpost : List (FeatureGraphNode Pt)) (roadGraph g1 g3 : G)
    (observer : Obs) (route : List Task)
    (hpre : rejectedRun env.SetStartNode roadGraph (pre.map (startCrossNode env)) = some g1)
    (hs : (env.SetStartNode g1 (startCrossNode env s)).1 = ResultCode.NoError)
    (hfpre : rejectedRun env.SetFinalNode (env.SetStartNode g1 (startCrossNode env s)).2
      (fpre.map (finalCrossNode env)) = some g3)
    (hf : (env.SetFinalNode g3 (finalCrossNode env f)).1 = ResultCode.NoError) :
    CalculateCrossMwmPath env debug (pre ++ s :: post) (fpre ++ f :: fpost) roadGraph
      observer route =
    if (CalculateRoute env debug ⟨startCrossNode env s, startCrossNode env s⟩
        ⟨finalCrossNode env f, finalCrossNode env f⟩
        (env.SetFinalNode g3 (finalCrossNode env f)).2 [] observer).code
          ≠ some ResultCode.NoError then
      { code := (CalculateRoute env debug ⟨startCrossNode env s, startCrossNode env s⟩
          ⟨finalCrossNode env f, finalCrossNode env f⟩
          (env.SetFinalNode g3 (finalCrossNode env f)).2 [] observer).code
        route := route
        calls := endpointCalls env pre s fpre f ++
          [Call.FindPath ⟨startCrossNode env s, startCrossNode env s⟩
            ⟨finalCrossNode env f, finalCrossNode env f⟩] }
    else
      { code := some (if (env.ConvertToSingleRouterTasks
            (CalculateRoute env debug ⟨startCrossNode env s, startCrossNode env s⟩
              ⟨finalCrossNode env f, finalCrossNode env f⟩
              (env.SetFinalNode g3 (finalCrossNode env f)).2 [] observer).route
            s f route).isEmpty then ResultCode.RouteNotFound else ResultCode.NoError)
        route := env.ConvertToSingleRouterTasks
          (CalculateRoute env debug ⟨startCrossNode env s, startCrossNode env s⟩
            ⟨finalCrossNode env f, finalCrossNode env f⟩
            (env.SetFinalNode g3 (finalCrossNode env f)).2 [] observer).route s f route
        calls := endpointCalls env pre s fpre f ++
          [Call.FindPath ⟨startCrossNode env s, startCrossNode env s⟩
            ⟨finalCrossNode env f, finalCrossNode env f⟩] ++
          [Call.ConvertToSingleRouterTasks
            (CalculateRoute env debug ⟨startCrossNode env s, startCrossNode env s⟩
              ⟨finalCrossNode env f, finalCrossNode env f⟩
              (env.SetFinalNode g3 (finalCrossNode env f)).2 [] observer).route s f] } := by
  have hS := findStartNode_accepted env pre s post
    { code := ResultCode.StartPointNotFound, crossNode := env.defaultCrossNode,
      graphNode := env.defaultGraphNode, roadGraph := roadGraph, calls := [] } g1 hpre hs
  have hF := findFinalNode_accepted env fpre f fpost
    { code := ResultCode.EndPointNotFound, crossNode := env.defaultCrossNode,
      graphNode := env.defaultGraphNode,
      roadGraph := (env.SetStartNode g1 (startCrossNode env s)).2,
      calls := (pre ++ [s]).map (fun x => Call.SetStartNode (startCrossNode env x)) }
    g3 hfpre hf
  simp only [CalculateCrossMwmPath, hS, ne_eq, not_true_eq_false, if_false, hF,
    List.nil_append, endpointCalls]
  simp only [CalculateRoute]

/-- The function when every start candidate is rejected. -/
theorem CalculateCrossMwmPath_start_rejected (env : Env Pt G Obs Task) (debug : Bool)
    (startGraphNodes finalGraphNodes : List (FeatureGraphNode Pt)) (roadGraph g1 : G)
    (observer : Obs) (route : List Task)
    (hstart : rejectedRun env.SetStartNode roadGraph
      (startGraphNodes.map (startCrossNode env)) = some g1) :
    CalculateCrossMwmPath env debug startGraphNodes finalGraphNodes roadGraph observer route =
      { code := some ResultCode.StartPointNotFound, route := route,
        calls := startGraphNodes.map (fun s => Call.SetStartNode (startCrossNode env s)) } := by
  obtain ⟨hcode, -, hcalls⟩ := findStartNode_rejected env startGraphNodes
    { code := ResultCode.StartPointNotFound, crossNode := env.defaultCrossNode,
      graphNode := env.defaultGraphNode, roadGraph := roadGraph, calls := [] }
    g1 hstart (fun h => ResultCode.noConfusion h)
  simp only [CalculateCrossMwmPath, ne_eq, hcode, not_false_eq_true, if_true, hcalls,
    List.nil_append]

/-- The function when a start candidate is accepted and every final candidate is
rejected. -/
theorem CalculateCrossMwmPath_final_rejected (env : Env Pt G Obs Task) (debug : Bool)
    (pre : List (FeatureGraphNode Pt)) (s : FeatureGraphNode Pt)
    (post finalGraphNodes : List (FeatureGraphNode Pt)) (roadGraph g1 g3 : G)
    (observer : Obs) (route : List Task)
    (hpre : rejectedRun env.SetStartNode roadGraph (pre.map (startCrossNode env)) = some g1)
    (hs : (env.SetStartNode g1 (startCrossNode env s)).1 = ResultCode.NoError)
    (hfinal : rejectedRun env.SetFinalNode (env.SetStartNode g1 (startCrossNode env s)).2
      (finalGraphNodes.map (finalCrossNode env)) = some g3) :
    CalculateCrossMwmPath env debug (pre ++ s :: post) finalGraphNodes roadGraph observer
      route =
      { code := some ResultCode.EndPointNotFound, route := route,
        calls := (pre ++ [s]).map (fun x => Call.SetStartNode (startCrossNode env x)) ++
          finalGraphNodes.map (fun x => Call.SetFinalNode (finalCrossNode env x)) } := by
  have hS := findStartNode_accepted env pre s post
    { code := ResultCode.StartPointNotFound, crossNode := env.defaultCrossNode,
      graphNode := env.defaultGraphNode, roadGraph := roadGraph, calls := [] } g1 hpre hs
  obtain ⟨hcode, -, hcalls⟩ := findFinalNode_rejected env finalGraphNodes
    { code := ResultCode.EndPointNotFound, crossNode := env.defaultCrossNode,
      graphNode := env.defaultGraphNode,
      roadGraph := (env.SetStartNode g1 (startCrossNode env s)).2,
      calls := (pre ++ [s]).map (fun x => Call.SetStartNode (startCrossNode env x)) }
    g3 hfinal (fun h => ResultCode.noConfusion h)
  simp only [CalculateCrossMwmPath, hS, ne_eq, not_true_eq_false, if_false, hcode,
    not_false_eq_true, if_true, hcalls, List.nil_append]

/-! ## Endpoint errors -/

/-- C1: if `SetStartNode` returns a code other than `NoError` for every start candidate
(an empty candidate list included), `CalculateCrossMwmPath` returns
`StartPointNotFound`, whatever the final candidates and whatever codes `SetStartNode`
returned; the output route is the one on entry, and the calls made are exactly the
`SetStartNode` calls, one per candidate in list order, so that neither `SetFinalNode`
nor the search nor the conversion is invoked. -/
theorem CalculateCrossMwmPath_startPointNotFound (env : Env Pt G Obs Task) (debug : Bool)
    (startGraphNodes finalGraphNodes : List (FeatureGraphNode Pt)) (roadGraph : G)
    (observer : Obs) (route : List Task)
    (hstart : (rejectedRun env.SetStartNode roadGraph
      (startGraphNodes.map (startCrossNode env))).isSome = true) :
    (CalculateCrossMwmPath env debug startGraphNodes finalGraphNodes roadGraph observer
      route).code = some ResultCode.StartPointNotFound ∧
    (CalculateCrossMwmPath env debug startGraphNodes finalGraphNodes roadGraph observer
      route).route = route ∧
    (CalculateCrossMwmPath env debug startGraphNodes finalGraphNodes roadGraph observer
      route).calls = startGraphNodes.map (fun s => Call.SetStartNode (startCrossNode env s)) ∧
    (∀ n, Call.SetFinalNode n ∉ (CalculateCrossMwmPath env debug startGraphNodes
      finalGraphNodes roadGraph observer route).calls) ∧
    (∀ a b, Call.FindPath a b ∉ (CalculateCrossMwmPath env debug startGraphNodes
      finalGraphNodes roadGraph observer route).calls) ∧
    (∀ r a b, Call.ConvertToSingleRouterTasks r a b ∉ (CalculateCrossMwmPath env debug
      startGraphNodes finalGraphNodes roadGraph observer route).calls) := by
  obtain ⟨g1, hg1⟩ := Option.isSome_iff_exists.mp hstart
  have hout := CalculateCrossMwmPath_start_rejected env debug startGraphNodes
    finalGraphNodes roadGraph g1 observer route hg1
  rw [hout]
  refine ⟨rfl, rfl, rfl, ?_, ?_, ?_⟩ <;> simp

/-- Witness of C1: two start candidates, both answered `RouteNotFound`. -/
theorem CalculateCrossMwmPath_startPointNotFound_witness :
    (rejectedRun (sampleEnv AStarResult.OK []).SetStartNode 0
      ([sampleCandidate 1 2, sampleCandidate 3 4].map
        (startCrossNode (sampleEnv AStarResult.OK [])))).isSome = true ∧
    (CalculateCrossMwmPath (sampleEnv AStarResult.OK []) false
      [sampleCandidate 1 2, sampleCandidate 3 4] [sampleCandidate 8 9] 0 () [42]).code
      = some ResultCode.StartPointNotFound :=
  ⟨by decide, (CalculateCrossMwmPath_startPointNotFound (sampleEnv AStarResult.OK []) false
    [sampleCandidate 1 2, sampleCandidate 3 4] [sampleCandidate 8 9] 0 () [42]
    (by decide)).1⟩

/-- C2: if some start candidate is accepted (`s`, after the rejected candidates `pre`) and
`SetFinalNode` returns a code other than `NoError` for every final candidate (an empty
list included), `CalculateCrossMwmPath` returns `EndPointNotFound`; the output route is
the one on entry, and the calls made are the `SetStartNode` calls up to `s` followed by
one `SetFinalNode` call per final candidate, so that the search is never run. -/
theorem CalculateCrossMwmPath_endPointNotFound (env : Env Pt G Obs Task) (debug : Bool)
    (pre : List (FeatureGraphNode Pt)) (s : FeatureGraphNode Pt)
    (post finalGraphNodes : List (FeatureGraphNode Pt)) (roadGraph g1 : G)
    (observer : Obs) (route : List Task)
    (hpre : rejectedRun env.SetStartNode roadGraph (pre.map (startCrossNode env)) = some g1)
    (hs : (env.SetStartNode g1 (startCrossNode env s)).1 = ResultCode.NoError)
    (hfinal : (rejectedRun env.SetFinalNode (env.SetStartNode g1 (startCrossNode env s)).2
      (finalGraphNodes.map (finalCrossNode env))).isSome = true) :
    (CalculateCrossMwmPath env debug (pre ++ s :: post) finalGraphNodes roadGraph observer
      route).code = some ResultCode.EndPointNotFound ∧
    (CalculateCrossMwmPath env debug (pre ++ s :: post) finalGraphNodes roadGraph observer
      route).route = route ∧
    (CalculateCrossMwmPath env debug (pre ++ s :: post) finalGraphNodes roadGraph observer
      route).calls =
        (pre ++ [s]).map (fun x => Call.SetStartNode (startCrossNode env x)) ++
        finalGraphNodes.map (fun x => Call.SetFinalNode (finalCrossNode env x)) ∧
    (∀ a b, Call.FindPath a b ∉ (CalculateCrossMwmPath env debug (pre ++ s :: post)
      finalGraphNodes roadGraph observer route).calls) ∧
    (∀ r a b, Call.ConvertToSingleRouterTasks r a b ∉ (CalculateCrossMwmPath env debug
      (pre ++ s :: post) finalGraphNodes roadGraph observer route).calls) := by
  obtain ⟨g3, hg3⟩ := Option.isSome_iff_exists.mp hfinal
  have hout := CalculateCrossMwmPath_final_rejected env debug pre s post finalGraphNodes
    roadGraph g1 g3 observer route hpre hs hg3
  rw [hout]
  refine ⟨rfl, rfl, rfl, ?_, ?_⟩ <;> simp

/-- Witness of C2: the second start candidate is accepted, both final candidates are
answered `Other 3`. -/
theorem CalculateCrossMwmPath_endPointNotFound_witness :
    (CalculateCrossMwmPath (sampleEnv AStarResult.OK []) false
      ([sampleCandidate 1 2] ++ sampleCandidate 7 2 :: [sampleCandidate 3 4])
      [sampleCandidate 8 1, sampleCandidate 8 2] 0 () [42]).code
      = some ResultCode.EndPointNotFound ∧
    (CalculateCrossMwmPath (sampleEnv AStarResult.OK []) false
      ([sampleCandidate 1 2] ++ sampleCandidate 7 2 :: [sampleCandidate 3 4])
      [sampleCandidate 8 1, sampleCandidate 8 2] 0 () [42]).route = [42] :=
  have h := CalculateCrossMwmPath_endPointNotFound (sampleEnv AStarResult.OK []) false
    [sampleCandidate 1 2] (sampleCandidate 7 2) [sampleCandidate 3 4]
    [sampleCandidate 8 1, sampleCandidate 8 2] 0 1 () [42] (by decide) (by decide) (by decide)
  ⟨h.1, h.2.1⟩

/-! ## Candidate selection -/

/-- C3: candidate selection is first-success in list order.  When `s` is the first start
candidate that `SetStartNode` accepts (the candidates `pre` before it are rejected) and
`f` the first final candidate that `SetFinalNode` accepts (after the rejected `fpre`),
the calls made are: `SetStartNode` for `pre` and `s` and for no candidate after `s`;
`SetFinalNode` for `fpre` and `f` and for no candidate after `f`; the search from the
crossing `{startNode, startNode}` to `{finalNode, finalNode}` built from `s` and `f`;
and, if the conversion is reached, `ConvertToSingleRouterTasks` with `s` and `f`. -/
theorem CalculateCrossMwmPath_first_success (env : Env Pt G Obs Task) (debug : Bool)
    (pre : List (FeatureGraphNode Pt)) (s : FeatureGraphNode Pt)
    (post fpre : List (FeatureGraphNode Pt)) (f : FeatureGraphNode Pt)
    (fpost : List (FeatureGraphNode Pt)) (roadGraph g1 g3 : G)
    (observer : Obs) (route : List Task)
    (hpre : rejectedRun env.SetStartNode roadGraph (pre.map (startCrossNode env)) = some g1)
    (hs : (env.SetStartNode g1 (startCrossNode env s)).1 = ResultCode.NoError)
    (hfpre : rejectedRun env.SetFinalNode (env.SetStartNode g1 (startCrossNode env s)).2
      (fpre.map (finalCrossNode env)) = some g3)
    (hf : (env.SetFinalNode g3 (finalCrossNode env f)).1 = ResultCode.NoError) :
    ∃ tail : List (Call Pt),
      (CalculateCrossMwmPath env debug (pre ++ s :: post) (fpre ++ f :: fpost) roadGraph
        observer route).calls =
        (pre ++ [s]).map (fun x => Call.SetStartNode
          (env.crossNode x.node.forward_node_id x.mwmName x.segmentPoint)) ++
        (fpre ++ [f]).map (fun x => Call.SetFinalNode
          { env.crossNode x.node.reverse_node_id x.mwmName x.segmentPoint with
            isVirtual := true }) ++
        Call.FindPath
          ⟨env.crossNode s.node.forward_node_id s.mwmName s.segmentPoint,
           env.crossNode s.node.forward_node_id s.mwmName s.segmentPoint⟩
          ⟨{ env.crossNode f.node.reverse_node_id f.mwmName f.segmentPoint with
             isVirtual := true },
           { env.crossNode f.node.reverse_node_id f.mwmName f.segmentPoint with
             isVirtual := true }⟩ :: tail ∧
      (tail = [] ∨
        ∃ graphCrosses, tail = [Call.ConvertToSingleRouterTasks graphCrosses s f]) := by
  rw [CalculateCrossMwmPath_accepted env debug pre s post fpre f fpost roadGraph g1 g3
    observer route hpre hs hfpre hf]
  split
  · exact ⟨[], by simp [endpointCalls, startCrossNode, finalCrossNode], Or.inl rfl⟩
  · refine ⟨[Call.ConvertToSingleRouterTasks
        (CalculateRoute env debug ⟨startCrossNode env s, startCrossNode env s⟩
          ⟨finalCrossNode env f, finalCrossNode env f⟩
          (env.SetFinalNode g3 (finalCrossNode env f)).2 [] observer).route s f],
      ?_, Or.inr ⟨_, rfl⟩⟩
    simp [endpointCalls, startCrossNode, finalCrossNode]

/-- Witness of C3: the second start candidate and the second final candidate are the
first accepted ones; a third candidate follows each. -/
theorem CalculateCrossMwmPath_first_success_witness :
    ∃ tail : List (Call Nat),
      (CalculateCrossMwmPath (sampleEnv AStarResult.NoPath []) false
        ([sampleCandidate 1 2] ++ sampleCandidate 7 2 :: [sampleCandidate 7 4])
        ([sampleCandidate 8 1] ++ sampleCandidate 8 9 :: [sampleCandidate 6 9]) 0 () [42]).calls =
        [Call.SetStartNode ⟨1, "A", 5, false⟩, Call.SetStartNode ⟨7, "A", 5, false⟩] ++
        [Call.SetFinalNode ⟨1, "A", 5, true⟩, Call.SetFinalNode ⟨9, "A", 5, true⟩] ++
        Call.FindPath ⟨⟨7, "A", 5, false⟩, ⟨7, "A", 5, false⟩⟩
          ⟨⟨9, "A", 5, true⟩, ⟨9, "A", 5, true⟩⟩ :: tail ∧
      (tail = [] ∨ ∃ graphCrosses, tail =
        [Call.ConvertToSingleRouterTasks graphCrosses (sampleCandidate 7 2)
          (sampleCandidate 8 9)]) :=
  CalculateCrossMwmPath_first_success (sampleEnv AStarResult.NoPath []) false
    [sampleCandidate 1 2] (sampleCandidate 7 2) [sampleCandidate 7 4]
    [sampleCandidate 8 1] (sampleCandidate 8 9) [sampleCandidate 6 9] 0 1 3 () [42]
    (by decide) (by decide) (by decide) (by decide)

/-! ## The search result -/

/-- C4: cancellation never yields a path.  When both endpoints are accepted and the A*
search reports `Cancelled`, `CalculateCrossMwmPath` returns `Cancelled` in every build,
`ConvertToSingleRouterTasks` is not called, and the output route is the one on entry. -/
theorem CalculateCrossMwmPath_cancelled (env : Env Pt G Obs Task) (debug : Bool)
    (pre : List (FeatureGraphNode Pt)) (s : FeatureGraphNode Pt)
    (post fpre : List (FeatureGraphNode Pt)) (f : FeatureGraphNode Pt)
    (fpost : List (FeatureGraphNode Pt)) (roadGraph g1 g3 : G)
    (observer : Obs) (route : List Task)
    (hpre : rejectedRun env.SetStartNode roadGraph (pre.map (startCrossNode env)) = some g1)
    (hs : (env.SetStartNode g1 (startCrossNode env s)).1 = ResultCode.NoError)
    (hfpre : rejectedRun env.SetFinalNode (env.SetStartNode g1 (startCrossNode env s)).2
      (fpre.map (finalCrossNode env)) = some g3)
    (hf : (env.SetFinalNode g3 (finalCrossNode env f)).1 = ResultCode.NoError)
    (hcancel : (env.FindPath (env.SetFinalNode g3 (finalCrossNode env f)).2
      ⟨startCrossNode env s, startCrossNode env s⟩
      ⟨finalCrossNode env f, finalCrossNode env f⟩ [] observer
      (fun cross _ => cross.fromNode.point)).1 = AStarResult.Cancelled) :
    (CalculateCrossMwmPath env debug (pre ++ s :: post) (fpre ++ f :: fpost) roadGraph
      observer route).code = some ResultCode.Cancelled ∧
    (CalculateCrossMwmPath env debug (pre ++ s :: post) (fpre ++ f :: fpost) roadGraph
      observer route).route = route ∧
    (∀ r a b, Call.ConvertToSingleRouterTasks r a b ∉ (CalculateCrossMwmPath env debug
      (pre ++ s :: post) (fpre ++ f :: fpost) roadGraph observer route).calls) := by
  have hc : (CalculateRoute env debug ⟨startCrossNode env s, startCrossNode env s⟩
      ⟨finalCrossNode env f, finalCrossNode env f⟩
      (env.SetFinalNode g3 (finalCrossNode env f)).2 [] observer).code
        = some ResultCode.Cancelled := by
    simp only [CalculateRoute, hcancel, switchResult]
  rw [CalculateCrossMwmPath_accepted env debug pre s post fpre f fpost roadGraph g1 g3
    observer route hpre hs hfpre hf, hc]
  simp [endpointCalls]

/-- Witness of C4: a cancelled search in a debug build, with a path left in the vector. -/
theorem CalculateCrossMwmPath_cancelled_witness :
    (CalculateCrossMwmPath
      (sampleEnv AStarResult.Cancelled [⟨⟨7, "A", 5, false⟩, ⟨7, "A", 5, false⟩⟩]) true
      ([] ++ sampleCandidate 7 2 :: []) ([] ++ sampleCandidate 8 9 :: []) 0 () [42]).code
      = some ResultCode.Cancelled ∧
    (CalculateCrossMwmPath
      (sampleEnv AStarResult.Cancelled [⟨⟨7, "A", 5, false⟩, ⟨7, "A", 5, false⟩⟩]) true
      ([] ++ sampleCandidate 7 2 :: []) ([] ++ sampleCandidate 8 9 :: []) 0 () [42]).route
      = [42] :=
  have h := CalculateCrossMwmPath_cancelled
    (sampleEnv AStarResult.Cancelled [⟨⟨7, "A", 5, false⟩, ⟨7, "A", 5, false⟩⟩]) true
    [] (sampleCandidate 7 2) [] [] (sampleCandidate 8 9) [] 0 0 1 () [42]
    (by decide) (by decide) (by decide) (by decide) (by decide)
  ⟨h.1, h.2.1⟩

/-- The code of `CalculateRoute` in terms of the search answer. -/
theorem CalculateRoute_code (env : Env Pt G Obs Task) (debug : Bool)
    (startPos finalPos : BorderCross Pt) (roadGraph : G) (route : List (BorderCross Pt))
    (observer : Obs) :
    (CalculateRoute env debug startPos finalPos roadGraph route observer).code =
      switchResult debug
        (okAssertions env (searchAnswer env startPos finalPos roadGraph route observer).2
          startPos finalPos)
        (searchAnswer env startPos finalPos roadGraph route observer).1 := rfl

/-- The path of `CalculateRoute` is the path of the search answer. -/
theorem CalculateRoute_route (env : Env Pt G Obs Task) (debug : Bool)
    (startPos finalPos : BorderCross Pt) (roadGraph : G) (route : List (BorderCross Pt))
    (observer : Obs) :
    (CalculateRoute env debug startPos finalPos roadGraph route observer).route =
      (searchAnswer env startPos finalPos roadGraph route observer).2 := rfl

/-- The codes `switchResult` can produce. -/
theorem switchResult_cases (debug assertionsHold : Bool) (result : AStarResult) :
    (switchResult debug assertionsHold result = some ResultCode.NoError ↔
      result = AStarResult.OK ∧ (debug = false ∨ assertionsHold = true)) ∧
    (switchResult debug assertionsHold result = some ResultCode.RouteNotFound ↔
      result = AStarResult.NoPath) ∧
    (switchResult debug assertionsHold result = some ResultCode.Cancelled ↔
      result = AStarResult.Cancelled) ∧
    (switchResult debug assertionsHold result = none ↔
      debug = true ∧ result = AStarResult.OK ∧ assertionsHold = false) ∧
    (∀ x, switchResult debug assertionsHold result = some x →
      x = ResultCode.NoError ∨ x = ResultCode.RouteNotFound ∨ x = ResultCode.Cancelled) := by
  cases debug <;> cases assertionsHold <;> cases result <;> simp [switchResult]

/-- C5: the search result is mapped to a router code totally and exactly.  In a release
build `CalculateRoute` returns `NoError` iff the A* result is `OK`, `RouteNotFound` iff it
is `NoPath` and `Cancelled` iff it is `Cancelled`.  In every build the last two
equivalences hold, `NoError` is returned iff the result is `OK` and no debug assertion
fails, and no code is returned only when a debug assertion fails.  Once both endpoints
are accepted, `CalculateCrossMwmPath` returns a code of `CalculateRoute` other than
`NoError` unchanged, and every code it returns is `NoError`, `RouteNotFound` or
`Cancelled`. -/
theorem CalculateRoute_result_mapping (env : Env Pt G Obs Task) (debug : Bool) :
    (∀ (startPos finalPos : BorderCross Pt) (roadGraph : G) (route : List (BorderCross Pt))
        (observer : Obs),
      ((CalculateRoute env false startPos finalPos roadGraph route observer).code
          = some ResultCode.NoError ↔
        (searchAnswer env startPos finalPos roadGraph route observer).1 = AStarResult.OK) ∧
      ((CalculateRoute env debug startPos finalPos roadGraph route observer).code
          = some ResultCode.NoError ↔
        (searchAnswer env startPos finalPos roadGraph route observer).1 = AStarResult.OK ∧
        (debug = false ∨ okAssertions env
          (searchAnswer env startPos finalPos roadGraph route observer).2
          startPos finalPos = true)) ∧
      ((CalculateRoute env debug startPos finalPos roadGraph route observer).code
          = some ResultCode.RouteNotFound ↔
        (searchAnswer env startPos finalPos roadGraph route observer).1
          = AStarResult.NoPath) ∧
      ((CalculateRoute env debug startPos finalPos roadGraph route observer).code
          = some ResultCode.Cancelled ↔
        (searchAnswer env startPos finalPos roadGraph route observer).1
          = AStarResult.Cancelled) ∧
      ((CalculateRoute env debug startPos finalPos roadGraph route observer).code = none ↔
        debug = true ∧
        (searchAnswer env startPos finalPos roadGraph route observer).1 = AStarResult.OK ∧
        okAssertions env (searchAnswer env startPos finalPos roadGraph route observer).2
          startPos finalPos = false)) ∧
    (∀ (pre : List (FeatureGraphNode Pt)) (s : FeatureGraphNode Pt)
        (post fpre : List (FeatureGraphNode Pt)) (f : FeatureGraphNode Pt)
        (fpost : List (FeatureGraphNode Pt)) (roadGraph g1 g3 : G)
        (observer : Obs) (route : List Task),
      rejectedRun env.SetStartNode roadGraph (pre.map (startCrossNode env)) = some g1 →
      (env.SetStartNode g1 (startCrossNode env s)).1 = ResultCode.NoError →
      rejectedRun env.SetFinalNode (env.SetStartNode g1 (startCrossNode env s)).2
        (fpre.map (finalCrossNode env)) = some g3 →
      (env.SetFinalNode g3 (finalCrossNode env f)).1 = ResultCode.NoError →
      ((CalculateRoute env debug ⟨startCrossNode env s, startCrossNode env s⟩
          ⟨finalCrossNode env f, finalCrossNode env f⟩
          (env.SetFinalNode g3 (finalCrossNode env f)).2 [] observer).code
            ≠ some ResultCode.NoError →
        (CalculateCrossMwmPath env debug (pre ++ s :: post) (fpre ++ f :: fpost) roadGraph
          observer route).code =
        (CalculateRoute env debug ⟨startCrossNode env s, startCrossNode env s⟩
          ⟨finalCrossNode env f, finalCrossNode env f⟩
          (env.SetFinalNode g3 (finalCrossNode env f)).2 [] observer).code) ∧
      (∀ x, (CalculateCrossMwmPath env debug (pre ++ s :: post) (fpre ++ f :: fpost)
          roadGraph observer route).code = some x →
        x = ResultCode.NoError ∨ x = ResultCode.RouteNotFound ∨ x = ResultCode.Cancelled)) := by
  refine ⟨?_, ?_⟩
  · intro startPos finalPos roadGraph route observer
    have h := switchResult_cases debug
      (okAssertions env (searchAnswer env startPos finalPos roadGraph route observer).2
        startPos finalPos)
      (searchAnswer env startPos finalPos roadGraph route observer).1
    have h0 := switchResult_cases false
      (okAssertions env (searchAnswer env startPos finalPos roadGraph route observer).2
        startPos finalPos)
      (searchAnswer env startPos finalPos roadGraph route observer).1
    simp only [CalculateRoute_code]
    refine ⟨?_, h.1, h.2.1, h.2.2.1, h.2.2.2.1⟩
    rw [h0.1]
    simp
  · intro pre s post fpre f fpost roadGraph g1 g3 observer route hpre hs hfpre hf
    rw [CalculateCrossMwmPath_accepted env debug pre s post fpre f fpost roadGraph g1 g3
      observer route hpre hs hfpre hf]
    refine ⟨fun hne => by rw [if_pos hne], ?_⟩
    intro x hx
    split at hx
    · rw [CalculateRoute_code] at hx
      exact (switchResult_cases _ _ _).2.2.2.2 x hx
    · simp only [Option.some.injEq] at hx
      split at hx
      · exact Or.inr (Or.inl hx.symm)
      · exact Or.inl hx.symm

/-- Witness of C5: a search without path between accepted endpoints gives
`RouteNotFound`. -/
theorem CalculateRoute_result_mapping_witness :
    (CalculateCrossMwmPath (sampleEnv AStarResult.NoPath []) true
      ([] ++ sampleCandidate 7 2 :: []) ([] ++ sampleCandidate 8 9 :: []) 0 () [42]).code
      = some ResultCode.RouteNotFound :=
  ((CalculateRoute_result_mapping (sampleEnv AStarResult.NoPath []) true).2
    [] (sampleCandidate 7 2) [] [] (sampleCandidate 8 9) [] 0 0 1 () [42]
    (by decide) (by decide) (by decide) (by decide)).1 (by decide)

/-- C6: `CalculateCrossMwmPath` returns `NoError` only with a non-empty output route, for
every input; and when both endpoints are accepted and the search succeeds (the A* result
is `OK` and no debug assertion fails), the output route is the one produced by
`ConvertToSingleRouterTasks` and the result is `RouteNotFound` if that route is empty and
`NoError` otherwise. -/
theorem CalculateCrossMwmPath_noError_nonempty (env : Env Pt G Obs Task) (debug : Bool) :
    (∀ (startGraphNodes finalGraphNodes : List (FeatureGraphNode Pt)) (roadGraph : G)
        (observer : Obs) (route : List Task),
      (CalculateCrossMwmPath env debug startGraphNodes finalGraphNodes roadGraph observer
        route).code = some ResultCode.NoError →
      (CalculateCrossMwmPath env debug startGraphNodes finalGraphNodes roadGraph observer
        route).route ≠ []) ∧
    (∀ (pre : List (FeatureGraphNode Pt)) (s : FeatureGraphNode Pt)
        (post fpre : List (FeatureGraphNode Pt)) (f : FeatureGraphNode Pt)
        (fpost : List (FeatureGraphNode Pt)) (roadGraph g1 g3 : G)
        (observer : Obs) (route : List Task),
      rejectedRun env.SetStartNode roadGraph (pre.map (startCrossNode env)) = some g1 →
      (env.SetStartNode g1 (startCrossNode env s)).1 = ResultCode.NoError →
      rejectedRun env.SetFinalNode (env.SetStartNode g1 (startCrossNode env s)).2
        (fpre.map (finalCrossNode env)) = some g3 →
      (env.SetFinalNode g3 (finalCrossNode env f)).1 = ResultCode.NoError →
      (searchAnswer env ⟨startCrossNode env s, startCrossNode env s⟩
        ⟨finalCrossNode env f, finalCrossNode env f⟩
        (env.SetFinalNode g3 (finalCrossNode env f)).2 [] observer).1 = AStarResult.OK →
      (debug = false ∨ okAssertions env
        (searchAnswer env ⟨startCrossNode env s, startCrossNode env s⟩
          ⟨finalCrossNode env f, finalCrossNode env f⟩
          (env.SetFinalNode g3 (finalCrossNode env f)).2 [] observer).2
        ⟨startCrossNode env s, startCrossNode env s⟩
        ⟨finalCrossNode env f, finalCrossNode env f⟩ = true) →
      (CalculateCrossMwmPath env debug (pre ++ s :: post) (fpre ++ f :: fpost) roadGraph
        observer route).route =
        env.ConvertToSingleRouterTasks
          (searchAnswer env ⟨startCrossNode env s, startCrossNode env s⟩
            ⟨finalCrossNode env f, finalCrossNode env f⟩
            (env.SetFinalNode g3 (finalCrossNode env f)).2 [] observer).2 s f route ∧
      (CalculateCrossMwmPath env debug (pre ++ s :: post) (fpre ++ f :: fpost) roadGraph
        observer route).code =
        some (if (env.ConvertToSingleRouterTasks
            (searchAnswer env ⟨startCrossNode env s, startCrossNode env s⟩
              ⟨finalCrossNode env f, finalCrossNode env f⟩
              (env.SetFinalNode g3 (finalCrossNode env f)).2 [] observer).2 s f route).isEmpty
          then ResultCode.RouteNotFound else ResultCode.NoError)) := by
  refine ⟨?_, ?_⟩
  · intro startGraphNodes finalGraphNodes roadGraph observer route
    rcases rejectedRun_cases env.SetStartNode (startCrossNode env) startGraphNodes roadGraph
      with ⟨g1, h1⟩ | ⟨pre, s, post, g1, hl, hpre, hs⟩
    · rw [CalculateCrossMwmPath_start_rejected env debug startGraphNodes finalGraphNodes
        roadGraph g1 observer route h1]
      intro h
      simp at h
    · subst hl
      rcases rejectedRun_cases env.SetFinalNode (finalCrossNode env) finalGraphNodes
        (env.SetStartNode g1 (startCrossNode env s)).2
        with ⟨g3, h3⟩ | ⟨fpre, f, fpost, g3, hl, hfpre, hf⟩
      · rw [CalculateCrossMwmPath_final_rejected env debug pre s post finalGraphNodes
          roadGraph g1 g3 observer route hpre hs h3]
        intro h
        simp at h
      · subst hl
        rw [CalculateCrossMwmPath_accepted env debug pre s post fpre f fpost roadGraph g1 g3
          observer route hpre hs hfpre hf]
        split
        · intro h
          contradiction
        · intro h
          simp only [Option.some.injEq] at h
          split at h
          · exact absurd h (fun h => ResultCode.noConfusion h)
          · rename_i hne
            intro hnil
            apply hne
            have hnil1 : env.ConvertToSingleRouterTasks
                (CalculateRoute env debug ⟨startCrossNode env s, startCrossNode env s⟩
                  ⟨finalCrossNode env f, finalCrossNode env f⟩
                  (env.SetFinalNode g3 (finalCrossNode env f)).2 [] observer).route
                s f route = [] := hnil
            rw [hnil1]
            rfl
  · intro pre s post fpre f fpost roadGraph g1 g3 observer route hpre hs hfpre hf hok hassert
    have hc : (CalculateRoute env debug ⟨startCrossNode env s, startCrossNode env s⟩
        ⟨finalCrossNode env f, finalCrossNode env f⟩
        (env.SetFinalNode g3 (finalCrossNode env f)).2 [] observer).code
          = some ResultCode.NoError := by
      rw [CalculateRoute_code]
      exact (switchResult_cases _ _ _).1.mpr ⟨hok, hassert⟩
    rw [CalculateCrossMwmPath_accepted env debug pre s post fpre f fpost roadGraph g1 g3
      observer route hpre hs hfpre hf]
    simp only [hc, ne_eq, not_true_eq_false, if_false, CalculateRoute_route]
    exact ⟨trivial, trivial⟩

/-- Witness of C6: a successful search whose path converts to an empty route gives
`RouteNotFound`. -/
theorem CalculateCrossMwmPath_noError_nonempty_witness :
    (CalculateCrossMwmPath (sampleEnv AStarResult.OK []) false
      ([] ++ sampleCandidate 7 2 :: []) ([] ++ sampleCandidate 8 9 :: []) 0 () []).code
      = some ResultCode.RouteNotFound :=
  ((CalculateCrossMwmPath_noError_nonempty (sampleEnv AStarResult.OK []) false).2
    [] (sampleCandidate 7 2) [] [] (sampleCandidate 8 9) [] 0 0 1 () []
    (by decide) (by decide) (by decide) (by decide) (by decide) (by decide)).2

/-! ## A search answer that breaks the endpoint checks -/

/-- C7, counterexample: the search reports `OK` with the path `[3]`, which neither begins
with the requested start crossing 7 nor ends with the requested final crossing 9; in a
release build `CalculateRoute` returns `NoError`, not `RouteNotFound`. -/
theorem CalculateRoute_release_wrong_path_counterexample :
    (searchAnswer (sampleEnv AStarResult.OK [sampleCross 3 false]) (sampleCross 7 false)
      (sampleCross 9 true) 0 [] ()).1 = AStarResult.OK ∧
    (searchAnswer (sampleEnv AStarResult.OK [sampleCross 3 false]) (sampleCross 7 false)
      (sampleCross 9 true) 0 [] ()).2.head? ≠ some (sampleCross 7 false) ∧
    (searchAnswer (sampleEnv AStarResult.OK [sampleCross 3 false]) (sampleCross 7 false)
      (sampleCross 9 true) 0 [] ()).2.getLast? ≠ some (sampleCross 9 true) ∧
    (CalculateRoute (sampleEnv AStarResult.OK [sampleCross 3 false]) false
      (sampleCross 7 false) (sampleCross 9 true) 0 [] ()).code = some ResultCode.NoError ∧
    (CalculateRoute (sampleEnv AStarResult.OK [sampleCross 3 false]) false
      (sampleCross 7 false) (sampleCross 9 true) 0 [] ()).code
        ≠ some ResultCode.RouteNotFound := by
  decide

/-- C7, amended: when the search reports `OK` and the returned path fails the endpoint
checks (it is empty, does not begin with the start crossing or does not end with the
final crossing), `CalculateRoute` returns `NoError` in a release build, where the checks
are compiled out, and returns no code in a debug build, where the failed assertion ends
the program; in neither build does it return `RouteNotFound`. -/
theorem CalculateRoute_wrong_path (env : Env Pt G Obs Task)
    (startPos finalPos : BorderCross Pt) (roadGraph : G) (route : List (BorderCross Pt))
    (observer : Obs)
    (hok : (searchAnswer env startPos finalPos roadGraph route observer).1 = AStarResult.OK)
    (hbad : okAssertions env (searchAnswer env startPos finalPos roadGraph route observer).2
      startPos finalPos = false) :
    (CalculateRoute env false startPos finalPos roadGraph route observer).code
      = some ResultCode.NoError ∧
    (CalculateRoute env true startPos finalPos roadGraph route observer).code = none ∧
    ∀ debug, (CalculateRoute env debug startPos finalPos roadGraph route observer).code
      ≠ some ResultCode.RouteNotFound := by
  simp only [CalculateRoute_code, hok, hbad]
  refine ⟨rfl, rfl, ?_⟩
  intro debug
  cases debug <;> simp [switchResult]

/-- Witness of the amended C7: the path `[3]` for the crossings 7 and 9. -/
theorem CalculateRoute_wrong_path_witness :
    (CalculateRoute (sampleEnv AStarResult.OK [sampleCross 3 false]) false
      (sampleCross 7 false) (sampleCross 9 true) 0 [] ()).code = some ResultCode.NoError ∧
    (CalculateRoute (sampleEnv AStarResult.OK [sampleCross 3 false]) true
      (sampleCross 7 false) (sampleCross 9 true) 0 [] ()).code = none :=
  have h := CalculateRoute_wrong_path (sampleEnv AStarResult.OK [sampleCross 3 false])
    (sampleCross 7 false) (sampleCross 9 true) 0 [] () (by decide) (by decide)
  ⟨h.1, h.2.1⟩

/-! ## The virtual flag -/

/-- C9: for every input, every node passed to `SetFinalNode` has `isVirtual = true` and is
the node constructed from a final candidate's reverse node id, mwm name and segment point
with the flag set; every node passed to `SetStartNode` is the node constructed from a
start candidate's forward node id, mwm name and segment point, with the flag as the
constructor left it; and every search is run from `{startNode, startNode}` to
`{finalNode, finalNode}` for such nodes, both halves of the goal being virtual. -/
theorem CalculateCrossMwmPath_final_node_virtual (env : Env Pt G Obs Task) (debug : Bool)
    (startGraphNodes finalGraphNodes : List (FeatureGraphNode Pt)) (roadGraph : G)
    (observer : Obs) (route : List Task) :
    (∀ n, Call.SetFinalNode n ∈ (CalculateCrossMwmPath env debug startGraphNodes
        finalGraphNodes roadGraph observer route).calls →
      n.isVirtual = true ∧ ∃ f ∈ finalGraphNodes, n =
        { env.crossNode f.node.reverse_node_id f.mwmName f.segmentPoint with
          isVirtual := true }) ∧
    (∀ n, Call.SetStartNode n ∈ (CalculateCrossMwmPath env debug startGraphNodes
        finalGraphNodes roadGraph observer route).calls →
      ∃ s ∈ startGraphNodes, n =
        env.crossNode s.node.forward_node_id s.mwmName s.segmentPoint) ∧
    (∀ a b, Call.FindPath a b ∈ (CalculateCrossMwmPath env debug startGraphNodes
        finalGraphNodes roadGraph observer route).calls →
      ∃ s ∈ startGraphNodes, ∃ f ∈ finalGraphNodes,
        a = ⟨env.crossNode s.node.forward_node_id s.mwmName s.segmentPoint,
             env.crossNode s.node.forward_node_id s.mwmName s.segmentPoint⟩ ∧
        b = ⟨{ env.crossNode f.node.reverse_node_id f.mwmName f.segmentPoint with
               isVirtual := true },
             { env.crossNode f.node.reverse_node_id f.mwmName f.segmentPoint with
               isVirtual := true }⟩ ∧
        b.fromNode.isVirtual = true ∧ b.toNode.isVirtual = true) := by
  rcases rejectedRun_cases env.SetStartNode (startCrossNode env) startGraphNodes roadGraph
    with ⟨g1, h1⟩ | ⟨pre, s, post, g1, hl, hpre, hs⟩
  · rw [CalculateCrossMwmPath_start_rejected env debug startGraphNodes finalGraphNodes
      roadGraph g1 observer route h1]
    refine ⟨?_, ?_, ?_⟩
    · intro n hn
      simp at hn
    · intro n hn
      simp only [List.mem_map, Call.SetStartNode.injEq] at hn
      obtain ⟨x, hx, rfl⟩ := hn
      exact ⟨x, hx, rfl⟩
    · intro a b hab
      simp at hab
  · subst hl
    rcases rejectedRun_cases env.SetFinalNode (finalCrossNode env) finalGraphNodes
      (env.SetStartNode g1 (startCrossNode env s)).2
      with ⟨g3, h3⟩ | ⟨fpre, f, fpost, g3, hl, hfpre, hf⟩
    · rw [CalculateCrossMwmPath_final_rejected env debug pre s post finalGraphNodes
        roadGraph g1 g3 observer route hpre hs h3]
      refine ⟨?_, ?_, ?_⟩
      · intro n hn
        simp only [List.mem_append, List.mem_map, Call.SetFinalNode.injEq, reduceCtorEq,
          and_false, exists_false, false_or] at hn
        obtain ⟨x, hx, rfl⟩ := hn
        exact ⟨rfl, x, hx, rfl⟩
      · intro n hn
        simp only [List.mem_append, List.mem_map, Call.SetStartNode.injEq, reduceCtorEq,
          and_false, exists_false, or_false] at hn
        obtain ⟨x, hx, rfl⟩ := hn
        refine ⟨x, ?_, rfl⟩
        rcases hx with hx | hx
        · exact List.mem_append_left _ hx
        · rw [List.mem_singleton] at hx
          subst hx
          exact List.mem_append_right _ (List.mem_cons_self _ _)
      · intro a b hab
        simp at hab
    · subst hl
      have hcalls : ∀ c ∈ (CalculateCrossMwmPath env debug (pre ++ s :: post)
          (fpre ++ f :: fpost) roadGraph observer route).calls,
          c ∈ endpointCalls env pre s fpre f ∨
          c = Call.FindPath ⟨startCrossNode env s, startCrossNode env s⟩
            ⟨finalCrossNode env f, finalCrossNode env f⟩ ∨
          ∃ r, c = Call.ConvertToSingleRouterTasks r s f := by
        rw [CalculateCrossMwmPath_accepted env debug pre s post fpre f fpost roadGraph g1 g3
          observer route hpre hs hfpre hf]
        intro c hc
        split at hc
        · simp only [List.mem_append, List.mem_singleton] at hc
          rcases hc with hc | hc
          · exact Or.inl hc
          · exact Or.inr (Or.inl hc)
        · simp only [List.mem_append, List.mem_singleton] at hc
          rcases hc with (hc | hc) | hc
          · exact Or.inl hc
          · exact Or.inr (Or.inl hc)
          · exact Or.inr (Or.inr ⟨_, hc⟩)
      have hsmem : s ∈ pre ++ s :: post :=
        List.mem_append_right _ (List.mem_cons_self _ _)
      have hfmem : f ∈ fpre ++ f :: fpost :=
        List.mem_append_right _ (List.mem_cons_self _ _)
      refine ⟨?_, ?_, ?_⟩
      · intro n hn
        rcases hcalls _ hn with hc | hc | ⟨r, hc⟩
        · simp only [endpointCalls, List.mem_append, List.mem_map, List.mem_singleton,
            Call.SetFinalNode.injEq, reduceCtorEq, and_false, exists_false, false_or] at hc
          obtain ⟨x, hx, rfl⟩ := hc
          refine ⟨rfl, x, ?_, rfl⟩
          rcases hx with hx | hx
          · exact List.mem_append_left _ hx
          · subst hx
            exact hfmem
        · exact Call.noConfusion hc
        · exact Call.noConfusion hc
      · intro n hn
        rcases hcalls _ hn with hc | hc | ⟨r, hc⟩
        · simp only [endpointCalls, List.mem_append, List.mem_map, List.mem_singleton,
            Call.SetStartNode.injEq, reduceCtorEq, and_false, exists_false, or_false] at hc
          obtain ⟨x, hx, rfl⟩ := hc
          refine ⟨x, ?_, rfl⟩
          rcases hx with hx | hx
          · exact List.mem_append_left _ hx
          · subst hx
            exact hsmem
        · exact Call.noConfusion hc
        · exact Call.noConfusion hc
      · intro a b hab
        rcases hcalls _ hab with hc | hc | ⟨r, hc⟩
        · simp [endpointCalls] at hc
        · simp only [Call.FindPath.injEq] at hc
          obtain ⟨ha, hb⟩ := hc
          subst ha
          subst hb
          exact ⟨s, hsmem, f, hfmem, rfl, rfl, rfl, rfl⟩
        · exact Call.noConfusion hc

/-- Witness of C9: the node passed to `SetFinalNode` for the candidate with reverse node
id 9 is virtual. -/
theorem CalculateCrossMwmPath_final_node_virtual_witness :
    (⟨9, "A", 5, true⟩ : CrossNode Nat).isVirtual = true ∧
    ∃ f ∈ [sampleCandidate 8 9], (⟨9, "A", 5, true⟩ : CrossNode Nat) =
      { (sampleEnv AStarResult.OK []).crossNode f.node.reverse_node_id f.mwmName
          f.segmentPoint with isVirtual := true } :=
  (CalculateCrossMwmPath_final_node_virtual (sampleEnv AStarResult.OK []) false
    [sampleCandidate 7 2] [sampleCandidate 8 9] 0 () [42]).1 ⟨9, "A", 5, true⟩ (by decide)

/-! ## The order of `CarDirection` -/

/-- C10: the numeric values of `CarDirection` respect the documented order: among the
right turns `TurnRight` is the smallest and `TurnSlightRight` the largest
(`TurnRight < TurnSharpRight < TurnSlightRight`), among the left turns `TurnLeft` is the
smallest and `TurnSlightLeft` the largest (`TurnLeft < TurnSharpLeft < TurnSlightLeft`),
and every right-turn value is smaller than every left-turn value. -/
theorem turns.CarDirection_value_order :
    (turns.CarDirection.TurnRight.value < turns.CarDirection.TurnSharpRight.value ∧
      turns.CarDirection.TurnSharpRight.value < turns.CarDirection.TurnSlightRight.value) ∧
    (turns.CarDirection.TurnLeft.value < turns.CarDirection.TurnSharpLeft.value ∧
      turns.CarDirection.TurnSharpLeft.value < turns.CarDirection.TurnSlightLeft.value) ∧
    (∀ r ∈ [turns.CarDirection.TurnRight, turns.CarDirection.TurnSharpRight,
        turns.CarDirection.TurnSlightRight],
      turns.CarDirection.TurnRight.value ≤ r.value ∧
      r.value ≤ turns.CarDirection.TurnSlightRight.value) ∧
    (∀ l ∈ [turns.CarDirection.TurnLeft, turns.CarDirection.TurnSharpLeft,
        turns.CarDirection.TurnSlightLeft],
      turns.CarDirection.TurnLeft.value ≤ l.value ∧
      l.value ≤ turns.CarDirection.TurnSlightLeft.value) ∧
    (∀ r ∈ [turns.CarDirection.TurnRight, turns.CarDirection.TurnSharpRight,
        turns.CarDirection.TurnSlightRight],
      ∀ l ∈ [turns.CarDirection.TurnLeft, turns.CarDirection.TurnSharpLeft,
        turns.CarDirection.TurnSlightLeft], r.value < l.value) := by
  decide

/-- Witness of C10: `TurnSlightRight`, the largest right turn, is below `TurnLeft`, the
smallest left turn. -/
theorem turns.CarDirection_value_order_witness :
    turns.CarDirection.TurnSlightRight.value < turns.CarDirection.TurnLeft.value :=
  turns.CarDirection_value_order.2.2.2.2 turns.CarDirection.TurnSlightRight (by decide)
    turns.CarDirection.TurnLeft (by decide)

/-! ## The endpoints of a found path -/

theorem AStarAlgorithm.mem_insertOpen {V : Type} (e y : OpenEntry V) (l : List (OpenEntry V)) :
    y ∈ AStarAlgorithm.insertOpen e l ↔ y = e ∨ y ∈ l := by
  induction l with
  | nil => simp [AStarAlgorithm.insertOpen]
  | cons x xs ih =>
    simp only [AStarAlgorithm.insertOpen]
    split
    · simp
    · simp only [List.mem_cons, ih]
      tauto

theorem AStarAlgorithm.OpenOk_expand {V : Type} [DecidableEq V] (graph : SearchGraph V)
    (startVertex finalVertex : V) (e : OpenEntry V) (closedSet : List V)
    (he : e.path.head? = some e.vertex ∧ e.path.getLast? = some startVertex)
    (openSet : List (OpenEntry V)) (hopen : AStarAlgorithm.OpenOk startVertex openSet) :
    AStarAlgorithm.OpenOk startVertex
      (AStarAlgorithm.expand graph finalVertex e closedSet openSet) := by
  unfold AStarAlgorithm.expand
  generalize graph.GetOutgoingEdges e.vertex = edges
  induction edges generalizing openSet with
  | nil => simpa using hopen
  | cons edge rest ih =>
    rw [List.foldl_cons]
    apply ih
    split
    · exact hopen
    · intro y hy
      rcases (AStarAlgorithm.mem_insertOpen _ _ _).mp hy with rfl | hy
      · refine ⟨rfl, ?_⟩
        cases hpath : e.path with
        | nil => rw [hpath] at he; simp at he
        | cons a as =>
          rw [← he.2, hpath]
          simp [List.getLast?_cons_cons]
      · exact hopen y hy

theorem AStarAlgorithm.searchLoop_ok {V : Type} [DecidableEq V] (graph : SearchGraph V)
    (startVertex finalVertex : V) (path : List V) (cancelled : Nat → Bool) (found : List V) :
    ∀ (fuel polls : Nat) (openSet : List (OpenEntry V)) (closedSet : List V),
      AStarAlgorithm.OpenOk startVertex openSet →
      AStarAlgorithm.searchLoop graph finalVertex path cancelled fuel polls openSet closedSet
        = some (AStarResult.OK, found) →
      found.head? = some startVertex ∧ found.getLast? = some finalVertex := by
  intro fuel
  induction fuel with
  | zero =>
    intro polls openSet closedSet _ h
    simp [AStarAlgorithm.searchLoop] at h
  | succ n ih =>
    intro polls openSet closedSet hopen h
    cases openSet with
    | nil => simp [AStarAlgorithm.searchLoop] at h
    | cons e rest =>
      have he := hopen e (List.mem_cons_self _ _)
      have hrest : AStarAlgorithm.OpenOk startVertex rest :=
        fun y hy => hopen y (List.mem_cons_of_mem _ hy)
      simp only [AStarAlgorithm.searchLoop] at h
      split at h
      · simp at h
      · split at h
        · exact ih _ _ _ hrest h
        · split at h
          · rename_i hgoal
            simp only [Option.some.injEq, Prod.mk.injEq, true_and] at h
            subst h
            rw [List.head?_reverse, List.getLast?_reverse, he.1, he.2, hgoal]
            exact ⟨rfl, rfl⟩
          · exact ih _ _ _
              (AStarAlgorithm.OpenOk_expand graph startVertex finalVertex e _ he rest hrest) h

/-- C8: whenever the A* search (as modelled from the specification) returns `OK`, the
returned `BorderCross` path is non-empty, its first element is `startPos` and its last
element is `finalPos`; hence the two `ASSERT_EQUAL` checks of the `OK` branch of
`CalculateRoute` hold, for every `operator==` of `BorderCross` that is reflexive. -/
theorem AStarAlgorithm.FindPath_ok_endpoints [DecidableEq Pt]
    (graph : SearchGraph (BorderCross Pt)) (startPos finalPos : BorderCross Pt)
    (route : List (BorderCross Pt)) (cancelled : Nat → Bool) (fuel : Nat)
    (found : List (BorderCross Pt)) (env : Env Pt G Obs Task)
    (hok : AStarAlgorithm.FindPath graph startPos finalPos route cancelled fuel
      = some (AStarResult.OK, found))
    (hrefl : ∀ a, env.crossEq a a = true) :
    found ≠ [] ∧ found.head? = some startPos ∧ found.getLast? = some finalPos ∧
    okAssertions env found startPos finalPos = true := by
  have hinit : AStarAlgorithm.OpenOk startPos
      [{ vertex := startPos, g := 0,
         f := graph.HeuristicCostEstimate startPos finalPos, path := [startPos] }] := by
    intro e he
    rw [List.mem_singleton] at he
    subst he
    exact ⟨rfl, rfl⟩
  obtain ⟨hhead, hlast⟩ := AStarAlgorithm.searchLoop_ok graph startPos finalPos route
    cancelled found fuel 0 _ [] hinit hok
  refine ⟨?_, hhead, hlast, ?_⟩
  · intro hnil
    rw [hnil] at hhead
    simp at hhead
  · simp [okAssertions, hhead, hlast, hrefl]

/-- Witness of C8: the search from crossing 7 to the virtual crossing 9 in the sample
graph finds the path 7, 5, 3, 9. -/
theorem AStarAlgorithm.FindPath_ok_endpoints_witness :
    AStarAlgorithm.FindPath sampleGraph (sampleCross 7 false) (sampleCross 9 true) []
      (fun _ => false) 20 =
      some (AStarResult.OK, [sampleCross 7 false, sampleCross 5 false, sampleCross 3 false,
        sampleCross 9 true]) ∧
    okAssertions (sampleEnv AStarResult.OK [])
      [sampleCross 7 false, sampleCross 5 false, sampleCross 3 false, sampleCross 9 true]
      (sampleCross 7 false) (sampleCross 9 true) = true :=
  ⟨by decide,
   (AStarAlgorithm.FindPath_ok_endpoints sampleGraph (sampleCross 7 false)
      (sampleCross 9 true) [] (fun _ => false) 20
      [sampleCross 7 false, sampleCross 5 false, sampleCross 3 false, sampleCross 9 true]
      (sampleEnv AStarResult.OK []) (by decide)
      (fun a => decide_eq_true (Eq.refl a))).2.2.2⟩

/-! ## Lane parsing -/

/-- C11: `ParseLanes` fails on the empty string, and for `"through|through;right"` it
succeeds with exactly two lane groups, the first holding one tag, `Through`, and the
second holding one `Right` tag (after a `Through` tag); this for every table of token
names that reads `through` as `Through` and `right` as `Right`. -/
theorem turns.ParseLanes_examples (laneWayOf : String → Option turns.LaneWay)
    (hthrough : laneWayOf "through" = some turns.LaneWay.Through)
    (hright : laneWayOf "right" = some turns.LaneWay.Right) :
    turns.ParseLanes laneWayOf "" = none ∧
    ∃ first second : turns.SingleLaneInfo,
      turns.ParseLanes laneWayOf "through|through;right" = some [first, second] ∧
      first.m_lane = [turns.LaneWay.Through] ∧
      second.m_lane.count turns.LaneWay.Right = 1 ∧
      second.m_lane = [turns.LaneWay.Through, turns.LaneWay.Right] := by
  have h1 : turns.SplitLanes "through|through;right" '|' = ["through", "through;right"] := by
    decide
  have h2 : turns.SplitLanes "through" ';' = ["through"] := by decide
  have h3 : turns.SplitLanes "through;right" ';' = ["through", "right"] := by decide
  have hne : ("through|through;right" : String) ≠ "" := by decide
  refine ⟨by simp [turns.ParseLanes], ⟨[turns.LaneWay.Through], false⟩,
    ⟨[turns.LaneWay.Through, turns.LaneWay.Right], false⟩, ?_, rfl, by decide, rfl⟩
  simp [turns.ParseLanes, hne, h1, turns.parseGroups, turns.ParseSingleLane, h2, h3,
    turns.parseTokens, hthrough, hright]

/-- Witness of C11: the sample table of token names. -/
theorem turns.ParseLanes_examples_witness :
    turns.ParseLanes turns.sampleLaneWayOf "" = none ∧
    ∃ first second : turns.SingleLaneInfo,
      turns.ParseLanes turns.sampleLaneWayOf "through|through;right"
        = some [first, second] ∧
      first.m_lane = [turns.LaneWay.Through] ∧
      second.m_lane.count turns.LaneWay.Right = 1 ∧
      second.m_lane = [turns.LaneWay.Through, turns.LaneWay.Right] :=
  turns.ParseLanes_examples turns.sampleLaneWayOf (by decide) (by decide)

/-! ## Turn items -/

/-- C13: a freshly constructed `TurnItem` keeps the car and the pedestrian classification
apart and is not flagged keep-anyway.  `TurnItem(idx, t, exitNum)` has index `idx`, turn
`t`, exit number `exitNum` (0 when omitted), pedestrian turn `None` and
`m_keepAnyway = false`; `TurnItem(idx, p)` has index `idx`, pedestrian turn `p`, turn
`None`, exit number 0 and `m_keepAnyway = false`; the default item has index 4294967295,
both classifications `None`, exit number 0 and `m_keepAnyway = false`; in all three the
lane list and both street names are empty. -/
theorem turns.TurnItem_constructors (idx exitNum : Nat) (t : turns.CarDirection)
    (p : turns.PedestrianDirection) :
    ((turns.TurnItem.ofCar idx t exitNum).m_index = idx ∧
      (turns.TurnItem.ofCar idx t exitNum).m_turn = t ∧
      (turns.TurnItem.ofCar idx t exitNum).m_exitNum = exitNum ∧
      (turns.TurnItem.ofCarNoExit idx t).m_exitNum = 0 ∧
      (turns.TurnItem.ofCarNoExit idx t).m_index = idx ∧
      (turns.TurnItem.ofCarNoExit idx t).m_turn = t ∧
      (turns.TurnItem.ofCar idx t exitNum).m_pedestrianTurn = turns.PedestrianDirection.None ∧
      (turns.TurnItem.ofCarNoExit idx t).m_pedestrianTurn = turns.PedestrianDirection.None ∧
      (turns.TurnItem.ofCar idx t exitNum).m_keepAnyway = false ∧
      (turns.TurnItem.ofCarNoExit idx t).m_keepAnyway = false) ∧
    ((turns.TurnItem.ofPedestrian idx p).m_index = idx ∧
      (turns.TurnItem.ofPedestrian idx p).m_pedestrianTurn = p ∧
      (turns.TurnItem.ofPedestrian idx p).m_turn = turns.CarDirection.None ∧
      (turns.TurnItem.ofPedestrian idx p).m_exitNum = 0 ∧
      (turns.TurnItem.ofPedestrian idx p).m_keepAnyway = false) ∧
    (turns.TurnItem.new.m_index = 4294967295 ∧
      turns.TurnItem.new.m_index = 2 ^ 32 - 1 ∧
      turns.TurnItem.new.m_turn = turns.CarDirection.None ∧
      turns.TurnItem.new.m_pedestrianTurn = turns.PedestrianDirection.None ∧
      turns.TurnItem.new.m_exitNum = 0 ∧
      turns.TurnItem.new.m_keepAnyway = false) ∧
    ((turns.TurnItem.ofCar idx t exitNum).m_lanes = [] ∧
      (turns.TurnItem.ofCar idx t exitNum).m_sourceName = "" ∧
      (turns.TurnItem.ofCar idx t exitNum).m_targetName = "" ∧
      (turns.TurnItem.ofCarNoExit idx t).m_lanes = [] ∧
      (turns.TurnItem.ofCarNoExit idx t).m_sourceName = "" ∧
      (turns.TurnItem.ofCarNoExit idx t).m_targetName = "" ∧
      (turns.TurnItem.ofPedestrian idx p).m_lanes = [] ∧
      (turns.TurnItem.ofPedestrian idx p).m_sourceName = "" ∧
      (turns.TurnItem.ofPedestrian idx p).m_targetName = "" ∧
      turns.TurnItem.new.m_lanes = [] ∧
      turns.TurnItem.new.m_sourceName = "" ∧
      turns.TurnItem.new.m_targetName = "") := by
  refine ⟨⟨rfl, rfl, rfl, rfl, rfl, rfl, rfl, rfl, rfl, rfl⟩, ⟨rfl, rfl, rfl, rfl, rfl⟩,
    ⟨rfl, by norm_num [turns.TurnItem.new], rfl, rfl, rfl, rfl⟩,
    ⟨rfl, rfl, rfl, rfl, rfl, rfl, rfl, rfl, rfl, rfl, rfl, rfl⟩⟩

/-! ## Equality of turn items -/

theorem turns.vectorEq_refl {α : Type} (elemEq : α → α → Bool)
    (hrefl : ∀ x, elemEq x x = true) : ∀ l : List α, turns.vectorEq elemEq l l = true := by
  intro l
  induction l with
  | nil => rfl
  | cons x xs ih => simp [turns.vectorEq, hrefl, ih]

theorem turns.vectorEq_symm {α : Type} (elemEq : α → α → Bool)
    (hsymm : ∀ x y, elemEq x y = true → elemEq y x = true) :
    ∀ l m : List α, turns.vectorEq elemEq l m = true → turns.vectorEq elemEq m l = true := by
  intro l
  induction l with
  | nil =>
    intro m h
    cases m with
    | nil => rfl
    | cons y ys => simp [turns.vectorEq] at h
  | cons x xs ih =>
    intro m h
    cases m with
    | nil => simp [turns.vectorEq] at h
    | cons y ys =>
      simp only [turns.vectorEq, Bool.and_eq_true] at h ⊢
      exact ⟨hsymm x y h.1, ih ys h.2⟩

theorem turns.vectorEq_trans {α : Type} (elemEq : α → α → Bool)
    (htrans : ∀ x y z, elemEq x y = true → elemEq y z = true → elemEq x z = true) :
    ∀ l m n : List α, turns.vectorEq elemEq l m = true → turns.vectorEq elemEq m n = true →
      turns.vectorEq elemEq l n = true := by
  intro l
  induction l with
  | nil =>
    intro m n h1 h2
    cases m with
    | nil => exact h2
    | cons y ys => simp [turns.vectorEq] at h1
  | cons x xs ih =>
    intro m n h1 h2
    cases m with
    | nil => simp [turns.vectorEq] at h1
    | cons y ys =>
      cases n with
      | nil => simp [turns.vectorEq] at h2
      | cons z zs =>
        simp only [turns.vectorEq, Bool.and_eq_true] at h1 h2 ⊢
        exact ⟨htrans x y z h1.1 h2.1, ih ys zs h1.2 h2.2⟩

theorem turns.vectorEq_structural {α : Type} (elemEq : α → α → Bool)
    (hstruct : ∀ x y, elemEq x y = true ↔ x = y) :
    ∀ l m : List α, turns.vectorEq elemEq l m = true ↔ l = m := by
  intro l
  induction l with
  | nil =>
    intro m
    cases m with
    | nil => simp [turns.vectorEq]
    | cons y ys => simp [turns.vectorEq]
  | cons x xs ih =>
    intro m
    cases m with
    | nil => simp [turns.vectorEq]
    | cons y ys => simp [turns.vectorEq, hstruct, ih]

theorem turns.TurnItem_eq_iff (laneEq : turns.SingleLaneInfo → turns.SingleLaneInfo → Bool)
    (a b : turns.TurnItem) :
    turns.TurnItem.eq laneEq a b = true ↔
      a.m_index = b.m_index ∧ a.m_turn = b.m_turn ∧
      turns.vectorEq laneEq a.m_lanes b.m_lanes = true ∧
      a.m_exitNum = b.m_exitNum ∧ a.m_sourceName = b.m_sourceName ∧
      a.m_targetName = b.m_targetName ∧ a.m_keepAnyway = b.m_keepAnyway ∧
      a.m_pedestrianTurn = b.m_pedestrianTurn := by
  simp only [turns.TurnItem.eq, Bool.and_eq_true, decide_eq_true_eq]
  tauto

/-- C14: `TurnItem::operator==` is equality over all eight members: `a == b` holds iff
index, car turn, lane list (compared as vectors under the `operator==` of
`SingleLaneInfo`), exit number, source name, target name, keep-anyway flag and pedestrian
turn are all equal.  When the `operator==` of `SingleLaneInfo` is an equivalence, so is
that of `TurnItem`: reflexive, symmetric and transitive; two items that differ in any
single member compare unequal; and when lane equality is structural, `a == b` holds iff
`a` and `b` are the same item. -/
theorem turns.TurnItem_eq_structural
    (laneEq : turns.SingleLaneInfo → turns.SingleLaneInfo → Bool)
    (hrefl : ∀ x, laneEq x x = true)
    (hsymm : ∀ x y, laneEq x y = true → laneEq y x = true)
    (htrans : ∀ x y z, laneEq x y = true → laneEq y z = true → laneEq x z = true) :
    (∀ a b : turns.TurnItem, turns.TurnItem.eq laneEq a b = true ↔
      a.m_index = b.m_index ∧ a.m_turn = b.m_turn ∧
      turns.vectorEq laneEq a.m_lanes b.m_lanes = true ∧
      a.m_exitNum = b.m_exitNum ∧ a.m_sourceName = b.m_sourceName ∧
      a.m_targetName = b.m_targetName ∧ a.m_keepAnyway = b.m_keepAnyway ∧
      a.m_pedestrianTurn = b.m_pedestrianTurn) ∧
    (∀ a : turns.TurnItem, turns.TurnItem.eq laneEq a a = true) ∧
    (∀ a b : turns.TurnItem, turns.TurnItem.eq laneEq a b = true →
      turns.TurnItem.eq laneEq b a = true) ∧
    (∀ a b c : turns.TurnItem, turns.TurnItem.eq laneEq a b = true →
      turns.TurnItem.eq laneEq b c = true → turns.TurnItem.eq laneEq a c = true) ∧
    (∀ a b : turns.TurnItem,
      (a.m_index ≠ b.m_index ∨ a.m_turn ≠ b.m_turn ∨
        turns.vectorEq laneEq a.m_lanes b.m_lanes = false ∨
        a.m_exitNum ≠ b.m_exitNum ∨ a.m_sourceName ≠ b.m_sourceName ∨
        a.m_targetName ≠ b.m_targetName ∨ a.m_keepAnyway ≠ b.m_keepAnyway ∨
        a.m_pedestrianTurn ≠ b.m_pedestrianTurn) →
      turns.TurnItem.eq laneEq a b = false) ∧
    ((∀ x y, laneEq x y = true ↔ x = y) →
      ∀ a b : turns.TurnItem, turns.TurnItem.eq laneEq a b = true ↔ a = b) := by
  refine ⟨turns.TurnItem_eq_iff laneEq, ?_, ?_, ?_, ?_, ?_⟩
  · intro a
    rw [turns.TurnItem_eq_iff]
    exact ⟨rfl, rfl, turns.vectorEq_refl laneEq hrefl _, rfl, rfl, rfl, rfl, rfl⟩
  · intro a b h
    rw [turns.TurnItem_eq_iff] at h ⊢
    obtain ⟨h1, h2, h3, h4, h5, h6, h7, h8⟩ := h
    exact ⟨h1.symm, h2.symm, turns.vectorEq_symm laneEq hsymm _ _ h3, h4.symm, h5.symm,
      h6.symm, h7.symm, h8.symm⟩
  · intro a b c hab hbc
    rw [turns.TurnItem_eq_iff] at hab hbc ⊢
    obtain ⟨h1, h2, h3, h4, h5, h6, h7, h8⟩ := hab
    obtain ⟨k1, k2, k3, k4, k5, k6, k7, k8⟩ := hbc
    exact ⟨h1.trans k1, h2.trans k2, turns.vectorEq_trans laneEq htrans _ _ _ h3 k3,
      h4.trans k4, h5.trans k5, h6.trans k6, h7.trans k7, h8.trans k8⟩
  · intro a b hdiff
    cases heq : turns.TurnItem.eq laneEq a b with
    | false => rfl
    | true =>
      rw [turns.TurnItem_eq_iff] at heq
      obtain ⟨h1, h2, h3, h4, h5, h6, h7, h8⟩ := heq
      rcases hdiff with h | h | h | h | h | h | h | h
      · exact absurd h1 h
      · exact absurd h2 h
      · rw [h3] at h; exact absurd h (by decide)
      · exact absurd h4 h
      · exact absurd h5 h
      · exact absurd h6 h
      · exact absurd h7 h
      · exact absurd h8 h
  · intro hstruct a b
    rw [turns.TurnItem_eq_iff, turns.vectorEq_structural laneEq hstruct]
    constructor
    · rintro ⟨h1, h2, h3, h4, h5, h6, h7, h8⟩
      cases a
      cases b
      simp only [turns.TurnItem.mk.injEq]
      exact ⟨h1, h2, h3, h4, h5, h6, h7, h8⟩
    · rintro rfl
      exact ⟨rfl, rfl, rfl, rfl, rfl, rfl, rfl, rfl⟩

/-- Witness of C14: with structural lane equality, two items that differ only in the
keep-anyway flag compare unequal. -/
theorem turns.TurnItem_eq_structural_witness :
    turns.TurnItem.eq (fun x y => decide (x = y))
      (turns.TurnItem.ofCar 3 turns.CarDirection.TurnLeft 0)
      { turns.TurnItem.ofCar 3 turns.CarDirection.TurnLeft 0 with m_keepAnyway := true }
      = false :=
  (turns.TurnItem_eq_structural (fun x y => decide (x = y))
    (fun x => decide_eq_true rfl)
    (fun x y h => decide_eq_true (of_decide_eq_true h).symm)
    (fun x y z h1 h2 => decide_eq_true ((of_decide_eq_true h1).trans (of_decide_eq_true h2)))
    ).2.2.2.2.1 _ _ (by decide)

end routing

namespace feature

variable {BV EF R : Type}

/-! ## Altitudes without an altitude section -/

/-- C12: if `m_altitudeInfoOffset` is 0, `GetAltitude` returns an empty altitude list for
every feature id and every point count, and makes no read at all: neither the
availability bit vector nor the feature table is consulted.  This is the state of every
loader the constructor yields for a format older than v8, and of every loader it yields
through its `OpenException` handler. -/
theorem AltitudeLoader.GetAltitude_no_section (env : AltitudeEnv BV EF R) :
    (∀ (self : AltitudeLoader BV EF R) (featureId pointCount : Nat),
      self.m_altitudeInfoOffset = 0 →
      AltitudeLoader.GetAltitude env self featureId pointCount
        = (AltitudeResult.Returned [], [])) ∧
    (∀ (value : MwmValue R) (reader : R) (tryBlock : R → TryBlock BV EF),
      value.altitudeReader = some reader →
      (value.format < env.v8 ∨
        ∃ minAltitude offset availability featureTable, tryBlock reader =
          TryBlock.OpenException minAltitude offset availability featureTable) →
      ∃ self, AltitudeLoader.new env (some value) tryBlock = some self ∧
        self.m_altitudeInfoOffset = 0 ∧
        ∀ featureId pointCount, AltitudeLoader.GetAltitude env self featureId pointCount
          = (AltitudeResult.Returned [], [])) := by
  have hzero : ∀ (self : AltitudeLoader BV EF R) (featureId pointCount : Nat),
      self.m_altitudeInfoOffset = 0 →
      AltitudeLoader.GetAltitude env self featureId pointCount
        = (AltitudeResult.Returned [], []) := by
    intro self featureId pointCount h
    simp [AltitudeLoader.GetAltitude, h]
  refine ⟨hzero, ?_⟩
  intro value reader tryBlock hreader hcase
  by_cases hold : value.format < env.v8
  · refine ⟨{ reader := reader, m_altitudeInfoOffset := 0,
               m_minAltitude := env.kInvalidAltitude, m_altitudeAvailability := none,
               m_featureTable := none }, ?_, rfl,
      fun featureId pointCount => hzero _ _ _ rfl⟩
    simp only [AltitudeLoader.new, hreader, if_pos hold]
  · rcases hcase with h | ⟨minAltitude, offset, availability, featureTable, htry⟩
    · exact absurd h hold
    · refine ⟨{ reader := reader, m_altitudeInfoOffset := 0,
                 m_minAltitude := env.kInvalidAltitude,
                 m_altitudeAvailability := availability,
                 m_featureTable := featureTable }, ?_, rfl,
        fun featureId pointCount => hzero _ _ _ rfl⟩
      simp only [AltitudeLoader.new, hreader, if_neg hold, htry]

/-- Witness of C12: a loader for the format 7, asked for feature 3 with 5 points. -/
theorem AltitudeLoader.GetAltitude_no_section_witness :
    ∃ self, AltitudeLoader.new sampleAltitudeEnv (some ⟨some [10, 20, 30], 7⟩)
        (fun _ => TryBlock.Completed 0 4 [true] [0]) = some self ∧
      self.m_altitudeInfoOffset = 0 ∧
      ∀ featureId pointCount,
        AltitudeLoader.GetAltitude sampleAltitudeEnv self featureId pointCount
          = (AltitudeResult.Returned [], []) :=
  (AltitudeLoader.GetAltitude_no_section sampleAltitudeEnv).2 ⟨some [10, 20, 30], 7⟩
    [10, 20, 30] (fun _ => TryBlock.Completed 0 4 [true] [0]) rfl (Or.inl (by decide))

end feature

namespace df

variable {Pt Sp : Type}

/-! ## The nearest line indexing level -/

theorem GetNearestLineIndexZoom_eq (zoom : Int) :
    GetNearestLineIndexZoom zoom = if 11 ≤ zoom then 11 else if 7 ≤ zoom then 7 else 1 := by
  simp only [GetNearestLineIndexZoom, kLineIndexingLevels, List.tail_cons, List.head_cons,
    nearestLoop]
  split_ifs <;> first | rfl | omega

/-- C16: for every integer `zoom`, `GetNearestLineIndexZoom zoom` is one of the line
indexing levels 1, 7, 11; for `zoom >= 1` it is the greatest level that is at most
`zoom`, and so does not exceed `zoom`; for `zoom < 1` it is 1; it is non-decreasing in
`zoom`; and the function applied to its own result returns that result. -/
theorem GetNearestLineIndexZoom_spec (zoom : Int) :
    GetNearestLineIndexZoom zoom ∈ kLineIndexingLevels ∧
    (GetNearestLineIndexZoom zoom = 1 ∨ GetNearestLineIndexZoom zoom = 7 ∨
      GetNearestLineIndexZoom zoom = 11) ∧
    (1 ≤ zoom → GetNearestLineIndexZoom zoom ≤ zoom ∧
      ∀ level ∈ kLineIndexingLevels, level ≤ zoom → level ≤ GetNearestLineIndexZoom zoom) ∧
    (zoom < 1 → GetNearestLineIndexZoom zoom = 1) ∧
    (∀ zoom2 : Int, zoom ≤ zoom2 →
      GetNearestLineIndexZoom zoom ≤ GetNearestLineIndexZoom zoom2) ∧
    GetNearestLineIndexZoom (GetNearestLineIndexZoom zoom) = GetNearestLineIndexZoom zoom := by
  refine ⟨?_, ?_, ?_, ?_, ?_, ?_⟩
  · rw [GetNearestLineIndexZoom_eq]
    simp only [kLineIndexingLevels, List.mem_cons, List.mem_singleton]
    split_ifs <;> simp
  · rw [GetNearestLineIndexZoom_eq]
    split_ifs <;> simp
  · intro h1
    rw [GetNearestLineIndexZoom_eq]
    refine ⟨by split_ifs <;> omega, ?_⟩
    intro level hlevel hle
    simp only [kLineIndexingLevels, List.mem_cons, List.mem_singleton, List.not_mem_nil,
      or_false] at hlevel
    rcases hlevel with rfl | rfl | rfl <;> split_ifs <;> omega
  · intro h1
    rw [GetNearestLineIndexZoom_eq]
    split_ifs <;> omega
  · intro zoom2 hle
    rw [GetNearestLineIndexZoom_eq, GetNearestLineIndexZoom_eq]
    split_ifs <;> omega
  · rw [GetNearestLineIndexZoom_eq zoom, GetNearestLineIndexZoom_eq]
    split_ifs <;> omega

/-- Witness of C16: at zoom 10 the nearest level is 7, which does not exceed 10 and is
not below any level that is at most 10. -/
theorem GetNearestLineIndexZoom_spec_witness :
    GetNearestLineIndexZoom 10 = 7 ∧ GetNearestLineIndexZoom 10 ≤ 10 ∧
    ∀ level ∈ kLineIndexingLevels, level ≤ 10 → level ≤ GetNearestLineIndexZoom 10 :=
  ⟨by decide, (GetNearestLineIndexZoom_spec 10).2.2.1 (by decide)⟩

/-! ## Lemmas on maps -/

theorem mapFind_mapErase_self {K V : Type} [DecidableEq K] (key : K) (m : List (K × V)) :
    mapFind key (mapErase key m) = none := by
  induction m with
  | nil => rfl
  | cons entry rest ih =>
    by_cases h : entry.1 = key
    · simpa [mapErase, h] using ih
    · simpa [mapErase, h, mapFind] using ih

theorem mapFind_mapErase_ne {K V : Type} [DecidableEq K] (key other : K) (hne : other ≠ key)
    (m : List (K × V)) : mapFind other (mapErase key m) = mapFind other m := by
  induction m with
  | nil => rfl
  | cons entry rest ih =>
    obtain ⟨k, v⟩ := entry
    simp only [mapErase] at ih ⊢
    by_cases h : k = key
    · have h2 : ¬ k = other := fun h3 => hne (h3.symm.trans h)
      rw [List.filter_cons_of_neg (by simpa using h)]
      simp only [mapFind, if_neg h2]
      exact ih
    · rw [List.filter_cons_of_pos (by simpa using h)]
      simp only [mapFind]
      by_cases h2 : k = other
      · simp only [if_pos h2]
      · simp only [if_neg h2]
        exact ih

theorem mapFind_mapModify_self {K V : Type} [DecidableEq K] (key : K) (f : V → V)
    (m : List (K × V)) : mapFind key (mapModify key f m) = (mapFind key m).map f := by
  induction m with
  | nil => rfl
  | cons entry rest ih =>
    obtain ⟨k, v⟩ := entry
    by_cases h : k = key
    · simp only [mapModify, mapFind, if_pos h, Option.map_some']
    · simp only [mapModify, mapFind, if_neg h]
      exact ih

theorem mapFind_mapModify_ne {K V : Type} [DecidableEq K] (key other : K) (hne : other ≠ key)
    (f : V → V) (m : List (K × V)) :
    mapFind other (mapModify key f m) = mapFind other m := by
  induction m with
  | nil => rfl
  | cons entry rest ih =>
    obtain ⟨k, v⟩ := entry
    by_cases h : k = key
    · have h2 : ¬ k = other := fun h3 => hne (h3.symm.trans h)
      simp only [mapModify, mapFind, if_pos h, if_neg h2]
    · simp only [mapModify, mapFind, if_neg h]
      by_cases h2 : k = other
      · simp only [if_pos h2]
      · simp only [if_neg h2]
        exact ih

theorem mapFind_map_values {K V : Type} [DecidableEq K] (key : K) (f : V → V)
    (m : List (K × V)) :
    mapFind key (m.map (fun entry => (entry.1, f entry.2))) = (mapFind key m).map f := by
  induction m with
  | nil => rfl
  | cons entry rest ih =>
    by_cases h : entry.1 = key
    · simp [mapFind, h]
    · simpa [mapFind, h] using ih

/-- The index after the first loop of `UpdateIndex`: in every tile the ids of the group
are cleared. -/
theorem UserMarkGenerator.RemoveGroup_eq (env : TileEnv Pt Sp) (groupId : Nat)
    (self : UserMarkGenerator Pt Sp) :
    UserMarkGenerator.RemoveGroup env groupId self = some
      { self with
        m_groupsVisibility := self.m_groupsVisibility.filter (fun g => decide (g ≠ groupId)),
        m_groups := mapErase groupId self.m_groups,
        m_index := self.m_index.map (fun tileGroups =>
          (tileGroups.1,
            mapModify groupId (fun _ => { m_marksID := [], m_linesID := [] })
              tileGroups.2)) } := by
  simp only [UserMarkGenerator.RemoveGroup, UserMarkGenerator.UpdateIndex,
    mapFind_mapErase_self]

/-! ## Removal of a group -/

/-- C17: for every prior state, `RemoveGroup g` returns, and afterwards `g` is not in the
group table and not in the visible-group set; in no tile does the index list a mark id or
a line id under `g`; the stored marks and lines are unchanged; and for every other
group the table entry, the visibility and the index entry in every tile are unchanged,
as is the list of tiles of the index. -/
theorem UserMarkGenerator.RemoveGroup_frame (env : TileEnv Pt Sp) (g : Nat)
    (self : UserMarkGenerator Pt Sp) :
    ∃ after : UserMarkGenerator Pt Sp,
      UserMarkGenerator.RemoveGroup env g self = some after ∧
      (mapFind g after.m_groups = none ∧ ∀ entry ∈ after.m_groups, entry.1 ≠ g) ∧
      g ∉ after.m_groupsVisibility ∧
      (∀ tile ∈ after.m_index, ∀ ids, mapFind g tile.2 = some ids →
        ids.m_marksID = [] ∧ ids.m_linesID = []) ∧
      (∀ tileKey ids, indexEntry after.m_index tileKey g = some ids →
        ids.m_marksID = [] ∧ ids.m_linesID = []) ∧
      after.m_marks = self.m_marks ∧ after.m_lines = self.m_lines ∧
      after.m_index.map Prod.fst = self.m_index.map Prod.fst ∧
      (∀ other, other ≠ g →
        mapFind other after.m_groups = mapFind other self.m_groups ∧
        (other ∈ after.m_groupsVisibility ↔ other ∈ self.m_groupsVisibility) ∧
        ∀ tileKey, indexEntry after.m_index tileKey other
          = indexEntry self.m_index tileKey other) := by
  refine ⟨_, UserMarkGenerator.RemoveGroup_eq env g self, ⟨mapFind_mapErase_self g _, ?_⟩,
    ?_, ?_, ?_, rfl, rfl, ?_, ?_⟩
  · intro entry hentry
    simp only [mapErase, List.mem_filter, decide_eq_true_eq] at hentry
    exact hentry.2
  · simp
  · intro tile htile ids hids
    simp only [List.mem_map] at htile
    obtain ⟨tile0, -, rfl⟩ := htile
    simp only [mapFind_mapModify_self] at hids
    cases hfind : mapFind g tile0.2 with
    | none => simp [hfind] at hids
    | some old =>
      simp only [hfind, Option.map_some', Option.some.injEq] at hids
      subst hids
      exact ⟨rfl, rfl⟩
  · intro tileKey ids hids
    simp only [indexEntry, mapFind_map_values] at hids
    cases htile : mapFind tileKey self.m_index with
    | none => simp [htile] at hids
    | some tileGroups =>
      simp only [htile, Option.map_some', mapFind_mapModify_self] at hids
      cases hfind : mapFind g tileGroups with
      | none => simp [hfind] at hids
      | some old =>
        simp only [hfind, Option.map_some', Option.some.injEq] at hids
        subst hids
        exact ⟨rfl, rfl⟩
  · simp [List.map_map, Function.comp_def]
  · intro other hne
    refine ⟨mapFind_mapErase_ne g other hne _, ?_, ?_⟩
    · simp [List.mem_filter, hne]
    · intro tileKey
      simp only [indexEntry, mapFind_map_values]
      cases htile : mapFind tileKey self.m_index with
      | none => rfl
      | some tileGroups =>
        simp only [Option.map_some']
        exact mapFind_mapModify_ne g other hne _ _

/-- Witness of C17: group 2 of the sample generator is removed; it leaves the table and
the visible set, and group 1 keeps its entry in the tile of zoom 17. -/
theorem UserMarkGenerator.RemoveGroup_frame_witness :
    ∃ after, UserMarkGenerator.RemoveGroup sampleTileEnv 2 sampleGenerator = some after ∧
      mapFind 2 after.m_groups = none ∧ 2 ∉ after.m_groupsVisibility ∧
      indexEntry after.m_index ⟨0, 0, 17⟩ 1 = some ⟨[1], []⟩ :=
  match UserMarkGenerator.RemoveGroup_frame sampleTileEnv 2 sampleGenerator with
  | ⟨after, h, hgroups, hvisible, _, _, _, _, _, hother⟩ =>
    ⟨after, h, hgroups.1, hvisible,
      ((hother 1 (by decide)).2.2 ⟨0, 0, 17⟩).trans (by decide)⟩

/-! ## Cleaning the index -/

theorem cleanIndex_no_empty_group (index : MarksIndex) :
    ∀ tile ∈ cleanIndex index, ∀ group ∈ tile.2,
      ¬ (group.2.m_marksID = [] ∧ group.2.m_linesID = []) := by
  intro tile htile group hgroup
  simp only [cleanIndex, List.mem_map, List.mem_filter] at htile
  obtain ⟨tile0, -, rfl⟩ := htile
  simp only [List.mem_filter, Bool.not_eq_true', Bool.and_eq_false_iff,
    List.isEmpty_eq_false] at hgroup
  rintro ⟨h1, h2⟩
  rcases hgroup.2 with h | h
  · exact h h1
  · exact h h2

theorem cleanIndex_no_tile_empty_before (index : MarksIndex) :
    ∀ tile ∈ cleanIndex index, ∃ tile0 ∈ index, tile0.1 = tile.1 ∧ tile0.2 ≠ [] := by
  intro tile htile
  simp only [cleanIndex, List.mem_map, List.mem_filter, Bool.not_eq_true',
    List.isEmpty_eq_false] at htile
  obtain ⟨tile0, ⟨hmem, hne⟩, rfl⟩ := htile
  exact ⟨tile0, hmem, rfl, hne⟩

/-- C15, the code at a failing input.  `CleanIndex` on the index with the one tile
`(0, 0, 17)` whose only group, 1, has no mark id and no line id leaves that tile in the
index with an empty group map: the pass over the tiles runs before the pass that erases
the groups.  The public calls `SetUserMarks`, `SetGroup 1`, `RemoveGroup 1`,
`SetGroup 2` on a fresh generator lead to this: their last step is `CleanIndex`, and
afterwards `GetUserMarksGroups` answers the tile key with an empty group map. -/
theorem UserMarkGenerator.CleanIndex_leaves_empty_tile :
    (UserMarkGenerator.CleanIndex
      { emptyGenerator with m_index := [(⟨0, 0, 17⟩, [(1, ⟨[], []⟩)])] }).m_index
      = [(⟨0, 0, 17⟩, [])] ∧
    (((UserMarkGenerator.SetGroup sampleTileEnv 1 ⟨[1], []⟩
        (UserMarkGenerator.SetUserMarks [(1, ⟨17, (0, 0), false⟩)] emptyGenerator)).bind
      (UserMarkGenerator.RemoveGroup sampleTileEnv 1)).map (fun self => self.m_index))
      = some [(⟨0, 0, 17⟩, [(1, ⟨[], []⟩)])] ∧
    ((((UserMarkGenerator.SetGroup sampleTileEnv 1 ⟨[1], []⟩
        (UserMarkGenerator.SetUserMarks [(1, ⟨17, (0, 0), false⟩)] emptyGenerator)).bind
      (UserMarkGenerator.RemoveGroup sampleTileEnv 1)).bind
      (UserMarkGenerator.SetGroup sampleTileEnv 2 ⟨[], []⟩)).map
        (fun self => (self.m_index, UserMarkGenerator.GetUserMarksGroups self ⟨0, 0, 17⟩)))
      = some ([(⟨0, 0, 17⟩, [])], some []) := by
  decide

end df
